import Mathlib

/- Verification development for the fm-cp compose/decompile pipeline
(src/fm_cp/__main__.py).  Python strings are modelled as lists of
characters, dictionaries as association lists built in insertion order,
and the ElementTree XML layer -- an external standard-library
collaborator according to the specification -- is modelled by an
explicit element type in which CDATA sections and character-reference
escapes have already been resolved to plain text, exactly as
ET.fromstring delivers them to the decompiler. -/

namespace FmCp

/-- Python strings are modelled as lists of characters. -/
abbrev Str := List Char

/-- Convert a Lean string literal to the character-list model. -/
def lit (s : String) : Str := s.data

/-- The whitespace class used by Python str.strip and by the regular
expression class backslash-s (ASCII range). -/
def isWSc (c : Char) : Bool :=
  c = ' ' || c = '\t' || c = '\n' || c = '\x0d' || c = '\x0b' || c = '\x0c'

/-- Left strip, as in Python lstrip. -/
def trimL (s : Str) : Str := s.dropWhile isWSc

/-- Right strip, as in Python rstrip. -/
def trimR (s : Str) : Str := ((s.reverse).dropWhile isWSc).reverse

/-- Python str.strip. -/
def trim (s : Str) : Str := trimR (trimL s)

/-- Python str.lower on a single character. -/
def lowC (c : Char) : Char := c.toLower

/-- Python str.lower. -/
def lowS (s : Str) : Str := s.map lowC

/-- Python str.split on a single separator character: splitting the
empty string yields one empty field, exactly as in Python. -/
def splitChar (sep : Char) : Str → List Str
  | [] => [[]]
  | c :: rest =>
    let r := splitChar sep rest
    if c = sep then [] :: r
    else
      match r with
      | h :: t => (c :: h) :: t
      | [] => [[c]]

/-- Python sep.join for a character separator. -/
def joinWith (sep : Char) : List Str → Str
  | [] => []
  | [l] => l
  | l :: rest => l ++ sep :: joinWith sep rest

/-- Python str.replace(old, new, 1): replace the first occurrence only.
An empty pattern is treated as matching nowhere (the source only ever
passes non-empty literals). -/
def replaceFirst (s pat rep : Str) : Str :=
  match s with
  | [] => []
  | c :: rest =>
    if List.isPrefixOf pat (c :: rest) then
      rep ++ List.drop pat.length (c :: rest)
    else
      c :: replaceFirst rest pat rep

/-- Fuel-driven worker of replaceAll; the fuel is an upper bound on
the number of characters consumed, so the initial charge of the
input length plus one is never exhausted. -/
def replaceAllF : Nat → Str → Str → Str → Str
  | 0, s, _, _ => s
  | _ + 1, [], _, _ => []
  | f + 1, c :: rest, pat, rep =>
    if List.isPrefixOf pat (c :: rest) then
      rep ++ replaceAllF f (List.drop pat.length (c :: rest)) pat rep
    else
      c :: replaceAllF f rest pat rep

/-- Python str.replace(old, new): replace every occurrence, scanning
left to right.  An empty pattern is treated as matching nowhere (the
source only ever passes non-empty literals, and with a non-empty
pattern every recursive call strictly consumes input, so the fuel never
runs out). -/
def replaceAll (s pat rep : Str) : Str :=
  if pat.isEmpty then s else replaceAllF (s.length + 1) s pat rep

/-- Python substring membership test (the in operator on strings). -/
def containsSub (s pat : Str) : Bool :=
  match s with
  | [] => List.isPrefixOf pat []
  | c :: rest => List.isPrefixOf pat (c :: rest) || containsSub rest pat

/-- Python str.title restricted to what the source applies it to:
uppercase every alphabetic character that follows a non-alphabetic
character (or the start), lowercase the rest. -/
def pyTitleGo : Bool → Str → Str
  | _, [] => []
  | prevAlpha, c :: rest =>
    if c.isAlpha then
      (if prevAlpha then c.toLower else c.toUpper) :: pyTitleGo true rest
    else
      c :: pyTitleGo false rest

/-- Python str.title. -/
def pyTitle (s : Str) : Str := pyTitleGo false s

/-- Python str.capitalize: first character uppercased, remainder
lowercased. -/
def pyCapitalize (s : Str) : Str :=
  match s with
  | [] => []
  | c :: rest => c.toUpper :: lowS rest

/-- Decimal rendering of a line number, as Python str(int). -/
def natStr (n : Nat) : Str := (toString n).data

/- ============================================================
   Stage 1 helpers: the parameter splitter and the delimiter
   balancer (source lines 270-341).
   ============================================================ -/

/-- Scanner state of the parameter splitter _split_params: parenthesis
depth, bracket depth, quote flag and escape flag (source lines
274-277). -/
structure SpState where
  dp : Int
  db : Int
  inq : Bool
  esc : Bool
deriving DecidableEq, Repr

/-- The initial scanner state of _split_params. -/
def spInit : SpState := ⟨0, 0, false, false⟩

/-- One character step of the _split_params scanner (state component
only; source lines 279-307). -/
def spStep (st : SpState) (c : Char) : SpState :=
  if st.esc then { st with esc := false }
  else if c = '\\' then { st with esc := true }
  else if c = '"' && st.dp = 0 then { st with inq := !st.inq }
  else if st.inq then st
  else if c = '(' then { st with dp := st.dp + 1 }
  else if c = ')' then { st with dp := st.dp - 1 }
  else if c = '[' then { st with db := st.db + 1 }
  else if c = ']' then { st with db := st.db - 1 }
  else st

/-- Whether the _split_params scanner splits at this character in this
state: a top-level semicolon, outside quotes, unescaped (source line
303). -/
def spSplits (st : SpState) (c : Char) : Bool :=
  !st.esc && !(c = '\\') && !(c = '"' && st.dp = 0) && !st.inq &&
    (c = ';' && st.dp = 0 && st.db = 0)

/-- Worker of _split_params: carries the scanner state and the
characters of the part built so far. -/
def spGo (st : SpState) (cur : Str) : Str → List Str
  | [] => if cur = [] then [] else [cur]
  | c :: rest =>
    if spSplits st c then cur :: spGo (spStep st c) [] rest
    else spGo (spStep st c) (cur ++ [c]) rest

/-- Source function _split_params (lines 270-311): split parameters on
semicolons, respecting quotes and nested parens/brackets.  Every
non-splitting character is appended to the current part; a splitting
semicolon closes the current part (which may be empty); a non-empty
final part is appended at the end of input. -/
def _split_params (s : Str) : List Str := spGo spInit [] s

/-- Scanner state of the delimiter balancer _count_delimiters:
parenthesis count, bracket count, quote flag and escape flag (source
lines 317-320). -/
structure BState where
  paren : Int
  bracket : Int
  inq : Bool
  esc : Bool
deriving DecidableEq, Repr

/-- The initial scanner state of _count_delimiters. -/
def bInit : BState := ⟨0, 0, false, false⟩

/-- One character step of the _count_delimiters scanner (source lines
321-340).  Unlike the splitter, the quote flag toggles at any
parenthesis depth. -/
def bStep (st : BState) (c : Char) : BState :=
  if st.esc then { st with esc := false }
  else if c = '\\' then { st with esc := true }
  else if c = '"' then { st with inq := !st.inq }
  else if st.inq then st
  else if c = '(' then { st with paren := st.paren + 1 }
  else if c = ')' then { st with paren := st.paren - 1 }
  else if c = '[' then { st with bracket := st.bracket + 1 }
  else if c = ']' then { st with bracket := st.bracket - 1 }
  else st

/-- Full balancer state after scanning a text. -/
def bStateAt (s : Str) : BState := s.foldl bStep bInit

/-- Source function _count_delimiters (lines 314-341): count unbalanced
parens and brackets in a text, respecting quotes; returns the pair of
signed depths. -/
def _count_delimiters (s : Str) : Int × Int :=
  let st := bStateAt s
  (st.paren, st.bracket)

/- Specification-side companions for claim C4. -/

/-- Splitter state after scanning a prefix of the input. -/
def spStateAt (s : Str) : SpState := s.foldl spStep spInit

/-- Specification-side list of split indices: the positions at which
the splitter state machine, started in the given state, meets a
splitting semicolon. -/
def semisFrom (st : SpState) : Str → List Nat
  | [] => []
  | c :: rest =>
    if spSplits st c then 0 :: (semisFrom (spStep st c) rest).map (· + 1)
    else (semisFrom (spStep st c) rest).map (· + 1)

/-- Fuel-driven worker of cutAt (the fuel is the number of cut
positions, so it is never exhausted). -/
def cutAtF : Nat → Str → List Nat → List Str
  | _, s, [] => if s = [] then [] else [s]
  | 0, s, _ :: _ => if s = [] then [] else [s]
  | f + 1, s, p :: ps =>
    List.take p s :: cutAtF f (List.drop (p + 1) s) (ps.map (· - (p + 1)))

/-- Cut a string at the given ascending character positions, dropping
the cut characters; a trailing empty segment is dropped, matching the
final conditional append of _split_params. -/
def cutAt (s : Str) (ps : List Nat) : List Str := cutAtF ps.length s ps

/-- Prepend an already-accumulated part to the first segment of a cut
(the closing move of the splitter's accumulator). -/
def addCur (cur : Str) : List Str → List Str
  | [] => if cur = [] then [] else [cur]
  | h :: t => (cur ++ h) :: t

/- ============================================================
   Data model: step kinds, parameter values, parsed steps
   (source lines 46-88).
   ============================================================ -/

/-- The closed enumeration of instruction kinds that parse_line can
construct (the keys of STEP_DEFS, source lines 46-71). -/
inductive SType where
  | comment
  | set_error_capture
  | allow_user_abort
  | set_variable
  | set_field_by_name
  | set_field
  | if_
  | else_if
  | else_
  | end_if
  | loop
  | exit_loop_if
  | end_loop
  | show_custom_dialog
  | exit_script
  | commit_records
  | insert_from_url
  | perform_script
  | go_to_layout
  | go_to_record
  | new_record
  | enter_find_mode
  | perform_find
  | sort_records
deriving DecidableEq, Repr

/-- The string name of a step kind, as used for the keys of STEP_DEFS
and for the step_type field of ParsedStep in the source. -/
def stName : SType → Str
  | .comment => "comment".data
  | .set_error_capture => "set_error_capture".data
  | .allow_user_abort => "allow_user_abort".data
  | .set_variable => "set_variable".data
  | .set_field_by_name => "set_field_by_name".data
  | .set_field => "set_field".data
  | .if_ => "if".data
  | .else_if => "else_if".data
  | .else_ => "else".data
  | .end_if => "end_if".data
  | .loop => "loop".data
  | .exit_loop_if => "exit_loop_if".data
  | .end_loop => "end_loop".data
  | .show_custom_dialog => "show_custom_dialog".data
  | .exit_script => "exit_script".data
  | .commit_records => "commit_records".data
  | .insert_from_url => "insert_from_url".data
  | .perform_script => "perform_script".data
  | .go_to_layout => "go_to_layout".data
  | .go_to_record => "go_to_record".data
  | .new_record => "new_record".data
  | .enter_find_mode => "enter_find_mode".data
  | .perform_find => "perform_find".data
  | .sort_records => "sort_records".data

/-- The numeric identifier of STEP_DEFS (source lines 46-71).  The
table is assigned in the source but the encoder branches hard-code
their identifiers, so it has no behavioural role beyond documentation. -/
def STEP_DEFS_id : SType → Nat
  | .comment => 89
  | .set_error_capture => 86
  | .allow_user_abort => 85
  | .set_variable => 141
  | .set_field_by_name => 147
  | .set_field => 125
  | .if_ => 68
  | .else_if => 125
  | .else_ => 69
  | .end_if => 70
  | .loop => 71
  | .exit_loop_if => 72
  | .end_loop => 73
  | .show_custom_dialog => 87
  | .exit_script => 103
  | .commit_records => 75
  | .insert_from_url => 160
  | .perform_script => 1
  | .go_to_layout => 6
  | .go_to_record => 16
  | .new_record => 7
  | .enter_find_mode => 22
  | .perform_find => 28
  | .sort_records => 39

/-- A parameter value in a step's parameter dictionary: the source
stores strings, booleans and lists of strings. -/
inductive PVal where
  | s (v : Str)
  | b (v : Bool)
  | l (v : List Str)
deriving DecidableEq, Repr

/-- A parameter dictionary, modelled as an association list in
insertion order. -/
abbrev Params := List (Str × PVal)

/-- Dictionary lookup (first binding wins; keys are never duplicated by
the recognizer). -/
def pLookup (p : Params) (k : Str) : Option PVal :=
  match p with
  | [] => none
  | (k0, v) :: rest => if k0 = k then some v else pLookup rest k

/-- Python dict.get with a string default. -/
def pGetS (p : Params) (k : Str) (d : Str) : Str :=
  match pLookup p k with
  | some (.s v) => v
  | _ => d

/-- Python dict.get with a boolean default. -/
def pGetB (p : Params) (k : Str) (d : Bool) : Bool :=
  match pLookup p k with
  | some (.b v) => v
  | _ => d

/-- Python dict.get with a list default. -/
def pGetL (p : Params) (k : Str) (d : List Str) : List Str :=
  match pLookup p k with
  | some (.l v) => v
  | _ => d

/-- Python dict assignment: overwrite the first binding of the key, or
append a new binding. -/
def pSet (p : Params) (k : Str) (v : PVal) : Params :=
  match p with
  | [] => [(k, v)]
  | (k0, v0) :: rest => if k0 = k then (k0, v) :: rest else (k0, v0) :: pSet rest k v

/-- Source class ParsedStep (lines 78-88): a single parsed script
step. -/
structure ParsedStep where
  step_type : SType
  params : Params
  line_num : Nat
  raw_text : Str
  enabled : Bool
deriving DecidableEq, Repr

/- ============================================================
   Stage 1: the step recognizer parse_line (source lines 91-267).
   The Python regular expressions are translated pattern by
   pattern; backslash-s-star followed by a lazy group followed by
   backslash-s-star and a closing bracket anchored at the end is
   equivalent to stripping the final bracket and trimming, except
   when the bracket content is whitespace only, in which case the
   lazy group captures the final whitespace character.
   ============================================================ -/

/-- Case-insensitive literal prefix match (re.IGNORECASE on an ASCII
keyword); returns the remainder after the keyword. -/
def ciPrefix : Str → Str → Option Str
  | [], s => some s
  | _ :: _, [] => none
  | k :: ks, c :: cs => if lowC k = lowC c then ciPrefix ks cs else none

/-- The word class of the regular expressions: backslash-w or a dot
(ASCII reading). -/
def isWordDot (c : Char) : Bool := c.isAlphanum || c = '_' || c = '.'

/-- Translation of the anchored tail pattern: optional whitespace, a
lazy non-empty group, optional whitespace, a closing square bracket,
end of input.  The group is the trimmed content before the final
bracket; if that content is pure whitespace the lazy engine captures
exactly its last character. -/
def brBody (l : Str) : Option Str :=
  match l.reverse with
  | ']' :: r =>
    let g := trim r.reverse
    if g ≠ [] then some g
    else
      match r with
      | [] => none
      | c :: _ => some [c]
  | _ => none

/-- Translation of the same tail pattern with a lazy possibly-empty
group: the group is always the trimmed content before the final
bracket. -/
def brBodyOpt (l : Str) : Option Str :=
  match l.reverse with
  | ']' :: r => some (trim r.reverse)
  | _ => none

/-- Match a case-insensitive keyword followed by optional whitespace
and an opening square bracket; returns the text after the bracket. -/
def afterKwBr (kw : Str) (s : Str) : Option Str :=
  match ciPrefix kw s with
  | some r =>
    match trimL r with
    | '[' :: rest => some rest
    | _ => none
  | none => none

/-- Match a bare case-insensitive keyword anchored at the end. -/
def kwBare (kw : Str) (s : Str) : Bool :=
  ciPrefix kw s = some []

/-- Worker for the two-lazy-group pattern: optional whitespace, lazy
group, semicolon, then the brBody tail.  The engine commits to the
first semicolon with non-empty trimmed content before it whose
remainder completes the match, otherwise backtracks past it. -/
def twoGroupsGo : Str → Str → Option (Str × Str)
  | [], _ => none
  | ';' :: rest, acc =>
    let g1 := trim acc.reverse
    if g1 ≠ [] then
      match brBody rest with
      | some g2 => some (g1, g2)
      | none => twoGroupsGo rest (';' :: acc)
    else twoGroupsGo rest (';' :: acc)
  | c :: rest, acc => twoGroupsGo rest (c :: acc)

/-- Translation of the two-parameter bracket pattern used by the Set
Field By Name and Set Field recognizers. -/
def twoGroups (l : Str) : Option (Str × Str) := twoGroupsGo l []

/-- Recognizer for Set Error Capture and Allow User Abort: the bracket
content is the alternation On or Off, case-insensitive, later
capitalized. -/
def mOnOff (kw : Str) (s : Str) : Option Str :=
  match afterKwBr kw s with
  | some rest =>
    let r := trimL rest
    let tryWord := fun (w : Str) =>
      match ciPrefix w r with
      | some r2 =>
        match trimL r2 with
        | [']'] => some (pyCapitalize (r.take w.length))
        | _ => none
      | none => none
    match tryWord "on".data with
    | some v => some v
    | none => tryWord "off".data
  | none => none

/-- Everything after the first colon, as Python split(colon, 1)[1];
only called when a colon is known to be present. -/
def afterColon (s : Str) : Str := (s.dropWhile (· ≠ ':')).drop 1

/-- Parameter-assembly fold of the Insert from URL recognizer (source
lines 225-239): label-prefixed parameters with positional fallback.
The resulting dictionary is emitted in the fixed order target, url,
curl; the encoder reads it by key only. -/
def ifuFold : List Str → Option Str → Option Str → Option Str →
    Option Str × Option Str × Option Str
  | [], t, u, c => (t, u, c)
  | p :: rest, t, u, c =>
    let pt := trim p
    let lp := lowS pt
    if List.isPrefixOf "target:".data lp then
      ifuFold rest (some (trim (pt.drop 7))) u c
    else if List.isPrefixOf "url:".data lp then
      ifuFold rest t (some (trim (pt.drop 4))) c
    else if List.isPrefixOf "curl:".data lp || List.isPrefixOf "curloptions:".data lp then
      ifuFold rest t u (some (trim (afterColon pt)))
    else if t = none then ifuFold rest (some pt) u c
    else if u = none then ifuFold rest t (some pt) c
    else ifuFold rest t u c

/-- Optional bracket tail shared by Commit Records, Enter Find Mode and
Sort Records: either nothing (after optional whitespace) or a bracket
with a lazy possibly-empty group.  Returns the group (empty when the
bracket is absent, as the source coalesces None to an empty string). -/
def optBracket (r : Str) : Option Str :=
  let rem := trimL r
  if rem = [] then some []
  else
    match rem with
    | '[' :: body => brBodyOpt body
    | _ => none

/-- Recognizer branch: Set Variable (source lines 126-132). -/
def mSetVariable (s : Str) (ln : Nat) : Option ParsedStep :=
  match afterKwBr "Set Variable".data s with
  | some rest =>
    match trimL rest with
    | '$' :: r2 =>
      let dollars : Str := if r2.head? = some '$' then "$$".data else "$".data
      let r3 := if r2.head? = some '$' then r2.drop 1 else r2
      let w := r3.takeWhile isWordDot
      if w = [] then none
      else
        let r4 := trimL (r3.drop w.length)
        match r4 with
        | ';' :: r5 =>
          match ciPrefix "value:".data (trimL r5) with
          | some r6 =>
            match brBody r6 with
            | some v =>
              some ⟨.set_variable,
                [( "name".data, .s (dollars ++ w)), ( "value".data, .s v)], ln, s, true⟩
            | none => none
          | none => none
        | _ => none
    | _ => none
  | none => none

/-- Recognizer branch: If / Else If / Exit Loop If / Exit Script with a
bracketed calculation. -/
def mCalcKind (kw : Str) (st : SType) (key : Str) (s : Str) (ln : Nat) :
    Option ParsedStep :=
  match afterKwBr kw s with
  | some rest =>
    match brBody rest with
    | some cexp => some ⟨st, [(key, .s cexp)], ln, s, true⟩
    | none => none
  | none => none

/-- Recognizer branch: Show Custom Dialog (source lines 182-190). -/
def mShowCustomDialog (s : Str) (ln : Nat) : Option ParsedStep :=
  match afterKwBr "Show Custom Dialog".data s with
  | some rest =>
    match brBody rest with
    | some inner =>
      let parts := _split_params inner
      let title := match parts.head? with
        | some p0 => trim p0
        | none => "\"\"".data
      let message := match parts.get? 1 with
        | some p1 => trim p1
        | none => "\"\"".data
      let buttons := if parts.length > 2 then (parts.drop 2).map trim
        else [ "\"OK\"".data]
      some ⟨.show_custom_dialog,
        [( "title".data, .s title), ( "message".data, .s message),
         ( "buttons".data, .l buttons)], ln, s, true⟩
    | none => none
  | none => none

/-- Recognizer branch: Commit Records (source lines 202-206). -/
def mCommitRecords (s : Str) (ln : Nat) : Option ParsedStep :=
  match ciPrefix "commit records".data s with
  | some r =>
    let r1 := match ciPrefix "/requests".data r with
      | some r2 => r2
      | none => r
    match optBracket r1 with
    | some opts =>
      let lo := lowS opts
      let nd := containsSub lo "no dialog".data || containsSub lo "skip".data
      some ⟨.commit_records, [( "no_dialog".data, .b nd)], ln, s, true⟩
    | none => none
  | none => none

/-- Recognizer branch: Perform Script (source lines 209-214). -/
def mPerformScript (s : Str) (ln : Nat) : Option ParsedStep :=
  match afterKwBr "Perform Script".data s with
  | some rest =>
    match brBody rest with
    | some inner =>
      let parts := _split_params inner
      let name := trim (parts.headD [])
      let param := match parts.get? 1 with
        | some p1 => trim p1
        | none => []
      some ⟨.perform_script,
        [( "script_name".data, .s name), ( "parameter".data, .s param)], ln, s, true⟩
    | none => none
  | none => none

/-- Recognizer branch: Go to Layout (source lines 217-219). -/
def mGoToLayout (s : Str) (ln : Nat) : Option ParsedStep :=
  match afterKwBr "Go to Layout".data s with
  | some rest =>
    match brBody rest with
    | some g => some ⟨.go_to_layout, [( "layout".data, .s (trim g))], ln, s, true⟩
    | none => none
  | none => none

/-- Recognizer branch: Insert from URL (source lines 222-240). -/
def mInsertFromURL (s : Str) (ln : Nat) : Option ParsedStep :=
  match afterKwBr "Insert from URL".data s with
  | some rest =>
    match brBody rest with
    | some inner =>
      let r := ifuFold (_split_params inner) none none none
      let ps : Params :=
        (match r.1 with | some v => [( "target".data, PVal.s v)] | none => []) ++
        (match r.2.1 with | some v => [( "url".data, PVal.s v)] | none => []) ++
        (match r.2.2 with | some v => [( "curl".data, PVal.s v)] | none => [])
      some ⟨.insert_from_url, ps, ln, s, true⟩
    | none => none
  | none => none

/-- Recognizer branch: New Record (source lines 243-244). -/
def mNewRecord (s : Str) (ln : Nat) : Option ParsedStep :=
  match ciPrefix "new record".data s with
  | some r =>
    if r = [] then some ⟨.new_record, [], ln, s, true⟩
    else
      match ciPrefix "/request".data r with
      | some r2 => if r2 = [] then some ⟨.new_record, [], ln, s, true⟩ else none
      | none => none
  | none => none

/-- Recognizer branch: Enter Find Mode (source lines 247-250). -/
def mEnterFindMode (s : Str) (ln : Nat) : Option ParsedStep :=
  match ciPrefix "enter find mode".data s with
  | some r =>
    match optBracket r with
    | some g =>
      some ⟨.enter_find_mode,
        [( "pause".data, .b (containsSub (lowS g) "pause".data))], ln, s, true⟩
    | none => none
  | none => none

/-- Recognizer branch: Perform Find (source lines 253-254): a bare
keyword or an empty bracket pair. -/
def mPerformFind (s : Str) (ln : Nat) : Option ParsedStep :=
  match ciPrefix "perform find".data s with
  | some r =>
    if r = [] then some ⟨.perform_find, [], ln, s, true⟩
    else
      match trimL r with
      | '[' :: body =>
        match brBodyOpt body with
        | some [] => some ⟨.perform_find, [], ln, s, true⟩
        | _ => none
      | _ => none
  | none => none

/-- Recognizer branch: Go to Record (source lines 257-259). -/
def mGoToRecord (s : Str) (ln : Nat) : Option ParsedStep :=
  match ciPrefix "go to record".data s with
  | some r =>
    let r1 := match ciPrefix "/request/page".data r with
      | some r2 => r2
      | none => r
    match trimL r1 with
    | '[' :: body =>
      let r2 := trimL body
      let tryDir := fun (w : Str) =>
        match ciPrefix w r2 with
        | some r3 =>
          match trimL r3 with
          | [']'] => some (pyCapitalize (r2.take w.length))
          | _ => none
        | none => none
      let dir :=
        match tryDir "first".data with
        | some v => some v
        | none =>
          match tryDir "last".data with
          | some v => some v
          | none =>
            match tryDir "next".data with
            | some v => some v
            | none => tryDir "previous".data
      match dir with
      | some v => some ⟨.go_to_record, [( "direction".data, .s v)], ln, s, true⟩
      | none => none
    | _ => none
  | none => none

/-- Recognizer branch: Sort Records (source lines 262-264): options are
accepted but discarded. -/
def mSortRecords (s : Str) (ln : Nat) : Option ParsedStep :=
  match ciPrefix "sort records".data s with
  | some r =>
    match optBracket r with
    | some _ => some ⟨.sort_records, [], ln, s, true⟩
    | none => none
  | none => none

/-- Continuation of the cascade from the If branch onwards. -/
def recognizeTail (s : Str) (ln : Nat) : Option ParsedStep :=
  match mCalcKind "If".data .if_ "calc".data s ln with
  | some st => some st
  | none =>
  match mCalcKind "Else If".data .else_if "calc".data s ln with
  | some st => some st
  | none =>
  if kwBare "Else".data s then some ⟨.else_, [], ln, s, true⟩
  else if kwBare "End If".data s then some ⟨.end_if, [], ln, s, true⟩
  else if kwBare "Loop".data s then some ⟨.loop, [], ln, s, true⟩
  else
  match mCalcKind "Exit Loop If".data .exit_loop_if "calc".data s ln with
  | some st => some st
  | none =>
  if kwBare "End Loop".data s then some ⟨.end_loop, [], ln, s, true⟩
  else
  match mShowCustomDialog s ln with
  | some st => some st
  | none =>
  match mCalcKind "Exit Script".data .exit_script "result".data s ln with
  | some st => some st
  | none =>
  if kwBare "Exit Script".data s then
    some ⟨.exit_script, [( "result".data, .s [])], ln, s, true⟩
  else
  match mCommitRecords s ln with
  | some st => some st
  | none =>
  match mPerformScript s ln with
  | some st => some st
  | none =>
  match mGoToLayout s ln with
  | some st => some st
  | none =>
  match mInsertFromURL s ln with
  | some st => some st
  | none =>
  match mNewRecord s ln with
  | some st => some st
  | none =>
  match mEnterFindMode s ln with
  | some st => some st
  | none =>
  match mPerformFind s ln with
  | some st => some st
  | none =>
  match mGoToRecord s ln with
  | some st => some st
  | none =>
  mSortRecords s ln

/-- Continuation of the cascade after the Set Field By Name branch. -/
def recognizeAfterSFBN (s : Str) (ln : Nat) : Option ParsedStep :=
  match afterKwBr "Set Field".data s with
  | some rest =>
    (match twoGroups rest with
     | some (f, v) =>
       some ⟨.set_field, [( "field".data, .s f), ( "value".data, .s v)], ln, s, true⟩
     | none => recognizeTail s ln)
  | none => recognizeTail s ln

/-- The grammar cascade of parse_line in source order (lines 114-264),
applied to an already-stripped non-comment line. -/
def recognize (s : Str) (ln : Nat) : Option ParsedStep :=
  match mOnOff "Set Error Capture".data s with
  | some v => some ⟨.set_error_capture, [( "state".data, .s v)], ln, s, true⟩
  | none =>
  match mOnOff "Allow User Abort".data s with
  | some v => some ⟨.allow_user_abort, [( "state".data, .s v)], ln, s, true⟩
  | none =>
  match mSetVariable s ln with
  | some st => some st
  | none =>
  match afterKwBr "Set Field By Name".data s with
  | some rest =>
    (match twoGroups rest with
     | some (t, v) =>
       some ⟨.set_field_by_name,
         [( "target".data, .s t), ( "value".data, .s v)], ln, s, true⟩
     | none => recognizeAfterSFBN s ln)
  | none => recognizeAfterSFBN s ln

/-- Result of parse_line: nothing (blank input), a recognition error
string, or a parsed step (source lines 91-107 and 267). -/
inductive PLRes where
  | noStep
  | err (e : Str)
  | step (st : ParsedStep)
deriving DecidableEq, Repr

/-- Fuel-driven worker of parseStripped: the disabled-step marker
strips at least three characters before the bounded re-recognition, so
an initial charge of the input length plus one is never exhausted. -/
def parseStrippedF : Nat → Str → Nat → PLRes
  | 0, _, _ => .noStep
  | f + 1, s, ln =>
    if s = [] then .noStep
    else if List.isPrefixOf "// ".data s then
      let inner := trim (s.drop 3)
      if inner = [] then .noStep
      else
        match parseStrippedF f inner ln with
        | .step st => .step { st with enabled := false }
        | r => r
    else if s.head? = some '#' then
      .step ⟨.comment, [( "text".data, .s (trim (s.drop 1)))], ln, s, true⟩
    else
      match recognize s ln with
      | some st => .step st
      | none => .err ( "Line ".data ++ natStr ln ++ ": Unrecognized step: ".data ++ s)

/-- Source function parse_line applied to an already-stripped line
(lines 93-267): blank handling, the disabled-step marker with its
bounded re-recognition, the comment prefix, then the grammar cascade,
and the unrecognized-step error. -/
def parseStripped (s : Str) (ln : Nat) : PLRes := parseStrippedF (s.length + 1) s ln

/-- Source function parse_line (lines 91-267): strip the raw line, then
recognize it. -/
def parse_line (line : Str) (ln : Nat) : PLRes := parseStripped (trim line) ln

/- ============================================================
   Stage 1: parse_text, the logical-line accumulator
   (source lines 344-412), and the comment coalescer
   (source lines 415-428).
   ============================================================ -/

/-- Merge one more comment step into an accumulated comment (source
line 425): the text becomes the newline join. -/
def mergeUpd (prev st : ParsedStep) : ParsedStep :=
  let newText : PVal :=
    .s (pGetS prev.params "text".data [] ++ '\n' :: pGetS st.params "text".data [])
  { prev with params := pSet prev.params "text".data newText }

/-- Worker of _merge_comments, carrying the last emitted step. -/
def mergeGo (prev : ParsedStep) : List ParsedStep → List ParsedStep
  | [] => [prev]
  | st :: rest =>
    if st.step_type = .comment && prev.step_type = .comment &&
        st.enabled = prev.enabled then
      mergeGo (mergeUpd prev st) rest
    else prev :: mergeGo st rest

/-- Source function _merge_comments (lines 415-428): merge consecutive
comment steps with the same enabled state into one. -/
def _merge_comments : List ParsedStep → List ParsedStep
  | [] => []
  | st :: rest => mergeGo st rest

/-- Accumulated output of the parse_text loop. -/
structure PTAcc where
  steps : List ParsedStep
  errs : List Str
deriving DecidableEq, Repr

/-- The flush of parse_text (source lines 357-374): strip the
accumulated raw lines, drop the blank ones, join with single spaces,
parse the logical line at the accumulation starting line. -/
def ptFlush (acc : List Str) (startLn : Nat) (out : PTAcc) : PTAcc :=
  if acc = [] then out
  else
    let logical := joinWith ' ' ((acc.map trim).filter (· ≠ []))
    match parse_line logical startLn with
    | .noStep => out
    | .err e => { out with errs := out.errs ++ [e] }
    | .step st => { out with steps := out.steps ++ [st] }

/-- The line loop of parse_text (source lines 376-407): blank lines
outside an accumulation are skipped; a new logical line starts at the
next non-blank line; while the accumulated paren or bracket depth is
positive every further raw line is appended; once both depths are at
most zero the accumulation is flushed; end of input forces a final
flush. -/
def ptGo : List Str → Nat → List Str → Nat → Int → Int → PTAcc → PTAcc
  | [], _, acc, startLn, _, _, out => ptFlush acc startLn out
  | line :: rest, i, acc, startLn, pd, bd, out =>
    let stripped := trim line
    if acc = [] then
      if stripped = [] then ptGo rest (i + 1) [] startLn pd bd out
      else
        let d := _count_delimiters stripped
        if d.1 ≤ 0 && d.2 ≤ 0 then
          ptGo rest (i + 1) [] i 0 0 (ptFlush [line] i out)
        else ptGo rest (i + 1) [line] i d.1 d.2 out
    else
      let d := _count_delimiters stripped
      if pd + d.1 ≤ 0 && bd + d.2 ≤ 0 then
        ptGo rest (i + 1) [] startLn 0 0 (ptFlush (acc ++ [line]) startLn out)
      else ptGo rest (i + 1) (acc ++ [line]) startLn (pd + d.1) (bd + d.2) out

/-- Source function parse_text (lines 344-412): split the text into raw
lines, run the accumulator loop from line number one, then merge
consecutive comments.  Returns the steps and the recognition errors. -/
def parse_text (text : Str) : List ParsedStep × List Str :=
  let out := ptGo (splitChar '\n' text) 1 [] 0 0 0 ⟨[], []⟩
  (_merge_comments out.steps, out.errs)

/- ============================================================
   Stage 2: the structural validator (source lines 435-545).
   ============================================================ -/

/-- A block frame of the validator: opener kind (the source strings if
and loop), opening line, has-else flag.  The stack is modelled with its
top at the head. -/
abbrev Frame := Str × Nat × Bool

/-- Source method ValidationResult.add_error formatting (line 446). -/
def addErr (ln : Nat) (msg : Str) : Str :=
  "Line ".data ++ natStr ln ++ ": ERROR — ".data ++ msg

/-- The unclosed-block error reported for a frame left on the stack at
end of input (source lines 537-539). -/
def vUnclosedMsg (f : Frame) : Str :=
  addErr f.2.1 ( "Unclosed ".data ++ pyTitle f.1 ++ " — missing End ".data ++
    pyTitle f.1)

/-- One step of the validator walk (the loop body, source lines
483-535): returns the errors this step raises and the new stack. -/
def vStepOut (st : ParsedStep) (stack : List Frame) : List Str × List Frame :=
  let ln := st.line_num
  match st.step_type with
  | .if_ => ([], ( "if".data, ln, false) :: stack)
  | .else_if =>
    match stack with
    | [] => ([addErr ln "Else If without matching If".data], stack)
    | (k, _, he) :: _ =>
      if k ≠ "if".data then ([addErr ln "Else If without matching If".data], stack)
      else if he then
        ([addErr ln "Else If after Else (must come before Else)".data], stack)
      else ([], stack)
  | .else_ =>
    match stack with
    | [] => ([addErr ln "Else without matching If".data], stack)
    | (k, l, he) :: tail =>
      if k ≠ "if".data then ([addErr ln "Else without matching If".data], stack)
      else if he then
        ([addErr ln "Duplicate Else — only one Else per If block".data], stack)
      else ([], ( "if".data, l, true) :: tail)
  | .end_if =>
    match stack with
    | [] => ([addErr ln "Orphan End If — no matching If".data], stack)
    | (k, l, _) :: tail =>
      if k ≠ "if".data then
        ([addErr ln ( "End If found but current open block is ".data ++ pyTitle k ++
          " (opened line ".data ++ natStr l ++ ")".data)], stack)
      else ([], tail)
  | .loop => ([], ( "loop".data, ln, false) :: stack)
  | .exit_loop_if =>
    if stack.any (fun f => f.1 = "loop".data) then ([], stack)
    else ([addErr ln "Exit Loop If outside of any Loop".data], stack)
  | .end_loop =>
    match stack with
    | [] => ([addErr ln "Orphan End Loop — no matching Loop".data], stack)
    | (k, l, _) :: tail =>
      if k ≠ "loop".data then
        ([addErr ln ( "End Loop found but current open block is ".data ++ pyTitle k ++
          " (opened line ".data ++ natStr l ++ ")".data)], stack)
      else ([], tail)
  | _ => ([], stack)

/-- The full validator pass: walk the steps threading the stack and the
error list, then report every frame left on the stack, oldest first
(source lines 483-539). -/
def validateGo : List ParsedStep → List Frame → List Str → List Str
  | [], stack, errs => errs ++ (stack.reverse).map vUnclosedMsg
  | st :: rest, stack, errs =>
    let r := vStepOut st stack
    validateGo rest r.2 (errs ++ r.1)

/-- Source class ValidationResult (lines 435-474): ordered error and
warning lists. -/
structure ValidationResult where
  errors : List Str
  warnings : List Str
deriving DecidableEq, Repr

/-- Source function validate_structure (lines 477-545). -/
def validate_structure (steps : List ParsedStep) : ValidationResult :=
  { errors := validateGo steps [] [],
    warnings :=
      if steps.length = 0 then
        [ "Line 0: WARN — No steps found — is the input empty?".data]
      else [] }

/- Specification-side companions for claim C6: the walk split into its
final stack and its in-walk errors. -/

/-- The stack after walking the whole step sequence. -/
def vWalk : List ParsedStep → List Frame → List Frame
  | [], stack => stack
  | st :: rest, stack => vWalk rest (vStepOut st stack).2

/-- The errors raised during the walk itself (excluding the end-of-input
unclosed-block report). -/
def vErrsFrom : List ParsedStep → List Frame → List Str
  | [], _ => []
  | st :: rest, stack => (vStepOut st stack).1 ++ vErrsFrom rest (vStepOut st stack).2

/- ============================================================
   Stage 3: the XML generator (source lines 552-735).
   ============================================================ -/

/-- Source function _cdata (lines 552-554). -/
def _cdata (v : Str) : Str := "<![CDATA[".data ++ v ++ "]]>".data

/-- Source function _strip_outer_quotes (lines 557-562). -/
def _strip_outer_quotes (s : Str) : Str :=
  let t := trim s
  if t.length ≥ 2 && t.head? = some '"' && t.getLast? = some '"' then
    (t.drop 1).dropLast
  else t

/-- The character-reference escaping applied to comment text before
embedding it in the Text element (source lines 575-576), in source
order. -/
def commentEscape (t : Str) : Str :=
  replaceAll
    (replaceAll
      (replaceAll
        (replaceAll
          (replaceAll t "&".data "&amp;".data)
          "<".data "&lt;".data)
        ">".data "&gt;".data)
      "\n".data "&#10;".data)
    "\"".data "&quot;".data

/-- Join a list of strings with a string separator, as Python
sep.join. -/
def joinSep (sep : Str) : List Str → Str
  | [] => []
  | [l] => l
  | l :: rest => l ++ sep ++ joinSep sep rest

/-- Dialog buttons padded to three slots then truncated to three
(source lines 639-642). -/
def padTo3 (l : List Str) : List Str :=
  (l ++ List.replicate (3 - l.length) []).take 3

/-- The per-button XML of Show Custom Dialog (source lines 642-646). -/
def buttonXml (btn : Str) : Str :=
  if btn ≠ [] then
    "<Button><Calculation>".data ++ _cdata btn ++ "</Calculation></Button>".data
  else "<Button></Button>".data

/-- Source function step_to_xml (lines 565-723): convert a parsed step
to its FileMaker XML string.  Every recognizable kind has a dedicated
branch; the final else emits an XML comment for any unhandled kind,
which for recognizer output is reachable exactly at set_field. -/
def step_to_xml (step : ParsedStep) : Str :=
  let p := step.params
  match step.step_type with
  | .comment =>
    let text := commentEscape (pGetS p "text".data [])
    "<Step enable=\"True\" id=\"89\" name=\"# (comment)\"><Text>".data ++ text ++
      "</Text></Step>".data
  | .set_error_capture =>
    let val := if pLookup p "state".data = some (.s "On".data) then "True".data
      else "False".data
    "<Step enable=\"True\" id=\"86\" name=\"Set Error Capture\"><Set state=\"".data ++
      val ++ "\"></Set></Step>".data
  | .allow_user_abort =>
    let val := if pLookup p "state".data = some (.s "On".data) then "True".data
      else "False".data
    "<Step enable=\"True\" id=\"85\" name=\"Allow User Abort\"><Set state=\"".data ++
      val ++ "\"></Set></Step>".data
  | .set_variable =>
    let name := pGetS p "name".data []
    let value := pGetS p "value".data []
    "<Step enable=\"True\" id=\"141\" name=\"Set Variable\"><Value><Calculation>".data ++
      _cdata value ++ "</Calculation></Value><Repetition><Calculation>".data ++
      _cdata "1".data ++ "</Calculation></Repetition><Name>".data ++ name ++
      "</Name></Step>".data
  | .set_field_by_name =>
    let target := pGetS p "target".data []
    let value := pGetS p "value".data []
    "<Step enable=\"True\" id=\"147\" name=\"Set Field By Name\"><Result><Calculation>".data ++
      _cdata value ++ "</Calculation></Result><TargetName><Calculation>".data ++
      _cdata target ++ "</Calculation></TargetName></Step>".data
  | .if_ =>
    "<Step enable=\"True\" id=\"68\" name=\"If\"><Calculation>".data ++
      _cdata (pGetS p "calc".data []) ++ "</Calculation></Step>".data
  | .else_if =>
    "<Step enable=\"True\" id=\"125\" name=\"Else If\"><Calculation>".data ++
      _cdata (pGetS p "calc".data []) ++ "</Calculation></Step>".data
  | .else_ => "<Step enable=\"True\" id=\"69\" name=\"Else\"></Step>".data
  | .end_if => "<Step enable=\"True\" id=\"70\" name=\"End If\"></Step>".data
  | .loop =>
    "<Step enable=\"True\" id=\"71\" name=\"Loop\"><FlushType value=\"Always\"></FlushType></Step>".data
  | .exit_loop_if =>
    "<Step enable=\"True\" id=\"72\" name=\"Exit Loop If\"><Calculation>".data ++
      _cdata (pGetS p "calc".data []) ++ "</Calculation></Step>".data
  | .end_loop => "<Step enable=\"True\" id=\"73\" name=\"End Loop\"></Step>".data
  | .show_custom_dialog =>
    let title := pGetS p "title".data "\"\"".data
    let message := pGetS p "message".data "\"\"".data
    let buttons := pGetL p "buttons".data [ "\"OK\"".data]
    "<Step enable=\"True\" id=\"87\" name=\"Show Custom Dialog\"><Title><Calculation>".data ++
      _cdata title ++ "</Calculation></Title><Message><Calculation>".data ++
      _cdata message ++ "</Calculation></Message><Buttons>".data ++
      ((padTo3 buttons).map buttonXml).flatten ++ "</Buttons></Step>".data
  | .exit_script =>
    let res := pGetS p "result".data []
    if res ≠ [] then
      "<Step enable=\"True\" id=\"103\" name=\"Exit Script\"><Calculation>".data ++
        _cdata res ++ "</Calculation></Step>".data
    else "<Step enable=\"True\" id=\"103\" name=\"Exit Script\"></Step>".data
  | .commit_records =>
    let nd := if pGetB p "no_dialog".data false then
      "<NoInteract state=\"True\"></NoInteract>".data else []
    "<Step enable=\"True\" id=\"75\" name=\"Commit Records/Requests\">".data ++ nd ++
      "</Step>".data
  | .perform_script =>
    let name := _strip_outer_quotes (pGetS p "script_name".data [])
    let param := pGetS p "parameter".data []
    "<Step enable=\"True\" id=\"1\" name=\"Perform Script\">".data ++
      (if param ≠ [] then
        "<Calculation>".data ++ _cdata param ++ "</Calculation>".data
      else []) ++
      "<Text>".data ++ name ++ "</Text></Step>".data
  | .go_to_layout =>
    let layout := _strip_outer_quotes (pGetS p "layout".data [])
    if layout ≠ [] then
      "<Step enable=\"True\" id=\"6\" name=\"Go to Layout\"><LayoutDestination value=\"ByName\"></LayoutDestination><Layout id=\"0\" name=\"".data ++
        layout ++ "\"></Layout></Step>".data
    else
      "<Step enable=\"True\" id=\"6\" name=\"Go to Layout\"><LayoutDestination value=\"CurrentLayout\"></LayoutDestination><Layout id=\"0\" name=\"\"></Layout></Step>".data
  | .insert_from_url =>
    let url := pGetS p "url".data []
    let curl := pGetS p "curl".data []
    "<Step enable=\"True\" id=\"160\" name=\"Insert from URL\"><NoInteract state=\"False\"></NoInteract><DontEncodeURL state=\"False\"></DontEncodeURL><SelectAll state=\"False\"></SelectAll><VerifySSLCertificates state=\"False\"></VerifySSLCertificates>".data ++
      (if url ≠ [] then
        "<URL><Calculation>".data ++ _cdata url ++ "</Calculation></URL>".data
      else []) ++
      (if curl ≠ [] then
        "<CURLOptions><Calculation>".data ++ _cdata curl ++ "</Calculation></CURLOptions>".data
      else []) ++ "</Step>".data
  | .go_to_record =>
    let direction := pGetS p "direction".data "First".data
    "<Step enable=\"True\" id=\"16\" name=\"Go to Record/Request/Page\"><RowPageLocation value=\"".data ++
      direction ++ "\"></RowPageLocation><NoInteract state=\"False\"></NoInteract></Step>".data
  | .new_record =>
    "<Step enable=\"True\" id=\"7\" name=\"New Record/Request\"></Step>".data
  | .enter_find_mode =>
    let pauseState := if pGetB p "pause".data false then "True".data else "False".data
    "<Step enable=\"True\" id=\"22\" name=\"Enter Find Mode\"><Pause state=\"".data ++
      pauseState ++ "\"></Pause><Restore state=\"False\"></Restore></Step>".data
  | .perform_find =>
    "<Step enable=\"True\" id=\"28\" name=\"Perform Find\"><Restore state=\"False\"></Restore></Step>".data
  | .sort_records =>
    "<Step enable=\"True\" id=\"39\" name=\"Sort Records\"><NoInteract state=\"False\"></NoInteract><Restore state=\"False\"></Restore></Step>".data
  | .set_field =>
    "<!-- Unknown step: ".data ++ stName .set_field ++ " -->".data

/-- The per-step emission of generate_xml (loop body, source lines
729-733): the enable attribute of a disabled step is flipped by a
first-occurrence string replacement. -/
def encodeStep (s : ParsedStep) : Str :=
  let xml := step_to_xml s
  if s.enabled then xml
  else replaceFirst xml "enable=\"True\"".data "enable=\"False\"".data

/-- Source function generate_xml (lines 726-735): envelope header, one
emission per step in order, envelope footer, concatenated. -/
def generate_xml (steps : List ParsedStep) : Str :=
  (( "<fmxmlsnippet type=\"FMObjectList\">".data :: steps.map encodeStep) ++
    [ "</fmxmlsnippet>".data]).flatten

/- ============================================================
   The XML element model.  The decompiler receives the document
   already parsed by ElementTree (an out-of-scope collaborator):
   an element has a tag, attributes, text content (with entity
   references and CDATA resolved; empty models Python None) and
   ordered children.
   ============================================================ -/

/-- An XML element as delivered by the external parser. -/
inductive XmlElem where
  | mk (tag : Str) (attrs : List (Str × Str)) (txt : Str) (children : List XmlElem)

/-- Element tag accessor. -/
def XmlElem.tag : XmlElem → Str
  | .mk t _ _ _ => t

/-- Element attribute-list accessor. -/
def XmlElem.attrs : XmlElem → List (Str × Str)
  | .mk _ a _ _ => a

/-- Element text accessor. -/
def XmlElem.txt : XmlElem → Str
  | .mk _ _ t _ => t

/-- Element children accessor. -/
def XmlElem.children : XmlElem → List XmlElem
  | .mk _ _ _ c => c

/-- ElementTree get: attribute lookup with a default. -/
def eGet (e : XmlElem) (k : Str) (d : Str) : Str :=
  match e.attrs.find? (fun kv => decide (kv.1 = k)) with
  | some kv => kv.2
  | none => d

/-- ElementTree find: first child with the given tag. -/
def eFind (e : XmlElem) (t : Str) : Option XmlElem :=
  e.children.find? (fun c => decide (c.tag = t))

/-- Source function _get_text (lines 1076-1081). -/
def _get_text (e : XmlElem) (tag : Str) : Option Str :=
  match eFind e tag with
  | some c => some (trim c.txt)
  | none => none

/-- Source function _get_calc (lines 1084-1091). -/
def _get_calc (e : XmlElem) (ptag : Str) : Option Str :=
  match eFind e ptag with
  | some par =>
    match eFind par "Calculation".data with
    | some c => some (trim c.txt)
    | none => none
  | none => none

/-- Source function _get_calc_direct (lines 1094-1099). -/
def _get_calc_direct (e : XmlElem) : Option Str :=
  match eFind e "Calculation".data with
  | some c => some (trim c.txt)
  | none => none

/-- Python truthiness coalescing used all over the decompiler: the or
operator applied to an optional string, where both None and the empty
string fall back to the default. -/
def orD (o : Option Str) (d : Str) : Str :=
  match o with
  | some v => if v = [] then d else v
  | none => d

/-- The text-or-empty pattern applied to an optional element (text is
taken only when present and non-empty, then stripped). -/
def eTextOr (o : Option XmlElem) : Str :=
  match o with
  | some e => if e.txt ≠ [] then trim e.txt else []
  | none => []

/- ============================================================
   Element-level encode: the structural counterpart of the
   strings produced by step_to_xml, as the external XML parser
   would deliver them back (CDATA content and character
   references resolved to plain text).  A set_field step encodes
   to an XML comment node, which the element parser discards,
   hence none.
   ============================================================ -/

/-- Build a Step element with the standard attribute triple. -/
def elemStep (idv name : Str) (children : List XmlElem) : XmlElem :=
  .mk "Step".data
    [( "enable".data, "True".data), ( "id".data, idv), ( "name".data, name)]
    [] children

/-- Build a Calculation element carrying calculation text. -/
def elemCalc (v : Str) : XmlElem := .mk "Calculation".data [] v []

/-- Build a childless element with a single state attribute. -/
def elemState (tag v : Str) : XmlElem := .mk tag [( "state".data, v)] [] []

/-- The parsed-element counterpart of step_to_xml: same branches, same
attribute and child order, with escaping already undone by the XML
layer. -/
def step_to_elem (step : ParsedStep) : Option XmlElem :=
  let p := step.params
  match step.step_type with
  | .comment =>
    some (elemStep "89".data "# (comment)".data
      [.mk "Text".data [] (pGetS p "text".data []) []])
  | .set_error_capture =>
    let val := if pLookup p "state".data = some (.s "On".data) then "True".data
      else "False".data
    some (elemStep "86".data "Set Error Capture".data [elemState "Set".data val])
  | .allow_user_abort =>
    let val := if pLookup p "state".data = some (.s "On".data) then "True".data
      else "False".data
    some (elemStep "85".data "Allow User Abort".data [elemState "Set".data val])
  | .set_variable =>
    some (elemStep "141".data "Set Variable".data
      [.mk "Value".data [] [] [elemCalc (pGetS p "value".data [])],
       .mk "Repetition".data [] [] [elemCalc "1".data],
       .mk "Name".data [] (pGetS p "name".data []) []])
  | .set_field_by_name =>
    some (elemStep "147".data "Set Field By Name".data
      [.mk "Result".data [] [] [elemCalc (pGetS p "value".data [])],
       .mk "TargetName".data [] [] [elemCalc (pGetS p "target".data [])]])
  | .if_ =>
    some (elemStep "68".data "If".data [elemCalc (pGetS p "calc".data [])])
  | .else_if =>
    some (elemStep "125".data "Else If".data [elemCalc (pGetS p "calc".data [])])
  | .else_ => some (elemStep "69".data "Else".data [])
  | .end_if => some (elemStep "70".data "End If".data [])
  | .loop =>
    some (elemStep "71".data "Loop".data
      [.mk "FlushType".data [( "value".data, "Always".data)] [] []])
  | .exit_loop_if =>
    some (elemStep "72".data "Exit Loop If".data
      [elemCalc (pGetS p "calc".data [])])
  | .end_loop => some (elemStep "73".data "End Loop".data [])
  | .show_custom_dialog =>
    let buttons := pGetL p "buttons".data [ "\"OK\"".data]
    some (elemStep "87".data "Show Custom Dialog".data
      ([.mk "Title".data [] [] [elemCalc (pGetS p "title".data "\"\"".data)],
        .mk "Message".data [] [] [elemCalc (pGetS p "message".data "\"\"".data)],
        .mk "Buttons".data [] []
          ((padTo3 buttons).map (fun btn =>
            if btn ≠ [] then .mk "Button".data [] [] [elemCalc btn]
            else .mk "Button".data [] [] []))]))
  | .exit_script =>
    let res := pGetS p "result".data []
    some (elemStep "103".data "Exit Script".data
      (if res ≠ [] then [elemCalc res] else []))
  | .commit_records =>
    some (elemStep "75".data "Commit Records/Requests".data
      (if pGetB p "no_dialog".data false then
        [elemState "NoInteract".data "True".data]
      else []))
  | .perform_script =>
    let name := _strip_outer_quotes (pGetS p "script_name".data [])
    let param := pGetS p "parameter".data []
    some (elemStep "1".data "Perform Script".data
      ((if param ≠ [] then [elemCalc param] else []) ++
       [.mk "Text".data [] name []]))
  | .go_to_layout =>
    let layout := _strip_outer_quotes (pGetS p "layout".data [])
    if layout ≠ [] then
      some (elemStep "6".data "Go to Layout".data
        [.mk "LayoutDestination".data [( "value".data, "ByName".data)] [] [],
         .mk "Layout".data [( "id".data, "0".data), ( "name".data, layout)] [] []])
    else
      some (elemStep "6".data "Go to Layout".data
        [.mk "LayoutDestination".data [( "value".data, "CurrentLayout".data)] [] [],
         .mk "Layout".data [( "id".data, "0".data), ( "name".data, [])] [] []])
  | .insert_from_url =>
    let url := pGetS p "url".data []
    let curl := pGetS p "curl".data []
    some (elemStep "160".data "Insert from URL".data
      ([elemState "NoInteract".data "False".data,
        elemState "DontEncodeURL".data "False".data,
        elemState "SelectAll".data "False".data,
        elemState "VerifySSLCertificates".data "False".data] ++
       (if url ≠ [] then [.mk "URL".data [] [] [elemCalc url]] else []) ++
       (if curl ≠ [] then [.mk "CURLOptions".data [] [] [elemCalc curl]] else [])))
  | .go_to_record =>
    some (elemStep "16".data "Go to Record/Request/Page".data
      [.mk "RowPageLocation".data
         [( "value".data, pGetS p "direction".data "First".data)] [] [],
       elemState "NoInteract".data "False".data])
  | .new_record => some (elemStep "7".data "New Record/Request".data [])
  | .enter_find_mode =>
    let pauseState := if pGetB p "pause".data false then "True".data
      else "False".data
    some (elemStep "22".data "Enter Find Mode".data
      [elemState "Pause".data pauseState, elemState "Restore".data "False".data])
  | .perform_find =>
    some (elemStep "28".data "Perform Find".data
      [elemState "Restore".data "False".data])
  | .sort_records =>
    some (elemStep "39".data "Sort Records".data
      [elemState "NoInteract".data "False".data,
       elemState "Restore".data "False".data])
  | .set_field => none

/-- Flip the enable attribute of an emitted element, the element-level
counterpart of the first-occurrence string replacement of generate_xml
(every emitted element carries enable as its first attribute). -/
def flipEnable : XmlElem → XmlElem
  | .mk t ((_, _) :: rest) x c => .mk t (( "enable".data, "False".data) :: rest) x c
  | e => e

/-- The element sequence produced by composing a step list: one element
per step except for set_field, whose emission is an XML comment that
the parser drops. -/
def generate_elems (steps : List ParsedStep) : List XmlElem :=
  steps.filterMap (fun s =>
    (step_to_elem s).map (fun e => if s.enabled then e else flipEnable e))

/- ============================================================
   Stage 4: the decompiler (source lines 742-1073), walking the
   parsed Step elements in document order.
   ============================================================ -/

/-- One dispatch of the decompiler loop body (source lines 756-1071):
returns the text lines this element contributes and the indentation
level for the following element.  The pre-decrement for closers and
else branches and the post-increment for openers follow the source
exactly; Nat subtraction models the floor at zero. -/
def decompStep (e : XmlElem) (ind : Nat) : List Str × Nat :=
  let sid := eGet e "id".data []
  let sname := eGet e "name".data []
  let enable := eGet e "enable".data "True".data
  let pfx : Str := if enable = "True".data then [] else "// ".data
  let ind1 :=
    if sid = "70".data || sid = "73".data then ind - 1
    else if sid = "69".data || sid = "125".data then ind - 1
    else ind
  let pad : Str := List.replicate (4 * ind1) ' '
  if sid = "89".data then
    (((splitChar '\n' (orD (_get_text e "Text".data) [])).map
      (fun cl => pad ++ pfx ++ "# ".data ++ cl)), ind1)
  else if sid = "86".data then
    let state := match eFind e "Set".data with
      | some se => if eGet se "state".data [] = "True".data then "On".data
        else "Off".data
      | none => "Off".data
    ([pad ++ pfx ++ "Set Error Capture [ ".data ++ state ++ " ]".data], ind1)
  else if sid = "85".data then
    let state := match eFind e "Set".data with
      | some se => if eGet se "state".data [] = "True".data then "On".data
        else "Off".data
      | none => "Off".data
    ([pad ++ pfx ++ "Allow User Abort [ ".data ++ state ++ " ]".data], ind1)
  else if sid = "141".data then
    let name := orD (_get_text e "Name".data) "$?".data
    let value := orD (_get_calc e "Value".data) []
    ([pad ++ pfx ++ "Set Variable [ ".data ++ name ++ " ; Value: ".data ++ value ++
      " ]".data], ind1)
  else if sid = "147".data then
    let target := orD (_get_calc e "TargetName".data) "?".data
    let value := orD (_get_calc e "Result".data) []
    ([pad ++ pfx ++ "Set Field By Name [ ".data ++ target ++ " ; ".data ++ value ++
      " ]".data], ind1)
  else if sid = "68".data then
    let cexp := orD (_get_calc_direct e) "?".data
    ([pad ++ pfx ++ "If [ ".data ++ cexp ++ " ]".data], ind1 + 1)
  else if sid = "125".data && sname = "Else If".data then
    let cexp := orD (_get_calc_direct e) "?".data
    ([pad ++ pfx ++ "Else If [ ".data ++ cexp ++ " ]".data], ind1 + 1)
  else if sid = "69".data then
    ([pad ++ pfx ++ "Else".data], ind1 + 1)
  else if sid = "70".data && sname = "End If".data then
    ([pad ++ pfx ++ "End If".data], ind1)
  else if sid = "71".data && sname = "Loop".data then
    ([pad ++ pfx ++ "Loop".data], ind1 + 1)
  else if sid = "72".data then
    let cexp := orD (_get_calc_direct e) "?".data
    ([pad ++ pfx ++ "Exit Loop If [ ".data ++ cexp ++ " ]".data], ind1)
  else if sid = "73".data then
    ([pad ++ pfx ++ "End Loop".data], ind1)
  else if sid = "87".data then
    let title := orD (_get_calc e "Title".data) "\"\"".data
    let message := orD (_get_calc e "Message".data) "\"\"".data
    let btnList := match eFind e "Buttons".data with
      | some be =>
        (be.children.filter (fun c => decide (c.tag = "Button".data))).filterMap
          (fun b => match eFind b "Calculation".data with
            | some ce => if ce.txt ≠ [] then some (trim ce.txt) else none
            | none => none)
      | none => []
    let parts := [title, message] ++ btnList
    ([pad ++ pfx ++ "Show Custom Dialog [ ".data ++ joinSep " ; ".data parts ++
      " ]".data], ind1)
  else if sid = "103".data then
    let cexp := orD (_get_calc_direct e) []
    (if cexp ≠ [] then [pad ++ pfx ++ "Exit Script [ ".data ++ cexp ++ " ]".data]
     else [pad ++ pfx ++ "Exit Script".data], ind1)
  else if sid = "75".data then
    let nd := match eFind e "NoInteract".data with
      | some ne => decide (eGet ne "state".data [] = "True".data)
      | none => false
    (if nd then [pad ++ pfx ++ "Commit Records [ No dialog ]".data]
     else [pad ++ pfx ++ "Commit Records".data], ind1)
  else if sid = "1".data then
    let name := match eFind e "Script".data with
      | some se =>
        let n := eGet se "name".data []
        if n ≠ [] then n else orD (_get_text e "Text".data) "?".data
      | none => orD (_get_text e "Text".data) "?".data
    let param := orD (_get_calc_direct e) []
    (if param ≠ [] then
      [pad ++ pfx ++ "Perform Script [ \"".data ++ name ++ "\" ; ".data ++ param ++
        " ]".data]
     else [pad ++ pfx ++ "Perform Script [ \"".data ++ name ++ "\" ]".data], ind1)
  else if sid = "6".data then
    let name := match eFind e "Layout".data with
      | some le => eGet le "name".data []
      | none => []
    let dest := match eFind e "LayoutDestination".data with
      | some de => eGet de "value".data []
      | none => []
    (if dest = "OriginalLayout".data then
      [pad ++ pfx ++ "Go to Layout [ original layout ]".data]
     else if name ≠ [] then
      [pad ++ pfx ++ "Go to Layout [ \"".data ++ name ++ "\" ]".data]
     else [pad ++ pfx ++ "Go to Layout [ current layout ]".data], ind1)
  else if sid = "160".data then
    let target := orD (_get_calc e "Field".data) []
    let url := orD (_get_calc e "URL".data) []
    let curl := orD (_get_calc e "CURLOptions".data) []
    let parts :=
      (if target ≠ [] then [ "Target: ".data ++ target] else []) ++
      (if url ≠ [] then [ "URL: ".data ++ url] else []) ++
      (if curl ≠ [] then [ "cURL: ".data ++ curl] else [])
    (if parts ≠ [] then
      [pad ++ pfx ++ "Insert from URL [ ".data ++ joinSep " ; ".data parts ++
        " ]".data]
     else [pad ++ pfx ++ "Insert from URL".data], ind1)
  else if sid = "16".data then
    let direction := match eFind e "RowPageLocation".data with
      | some de => eGet de "value".data "?".data
      | none => "?".data
    ([pad ++ pfx ++ "Go to Record/Request/Page [ ".data ++ direction ++ " ]".data],
      ind1)
  else if sid = "7".data && sname = "New Record/Request".data then
    ([pad ++ pfx ++ "New Record/Request".data], ind1)
  else if sid = "22".data then
    ([pad ++ pfx ++ "Enter Find Mode".data], ind1)
  else if sid = "28".data then
    ([pad ++ pfx ++ "Perform Find".data], ind1)
  else if sid = "39".data then
    ([pad ++ pfx ++ "Sort Records".data], ind1)
  else if sid = "76".data then
    let fe := eFind e "Field".data
    let table := match fe with
      | some f => eGet f "table".data []
      | none => []
    let fname := match fe with
      | some f => eGet f "name".data []
      | none => "?".data
    let cexp := orD (_get_calc_direct e) []
    let fieldRef := if table ≠ [] then table ++ "::".data ++ fname else fname
    (if cexp ≠ [] then
      [pad ++ pfx ++ "Set Field [ ".data ++ fieldRef ++ " ; ".data ++ cexp ++
        " ]".data]
     else [pad ++ pfx ++ "Set Field [ ".data ++ fieldRef ++ " ]".data], ind1)
  else if sid = "61".data then
    let fieldTarget := eTextOr (eFind e "Field".data)
    let textContent := orD (_get_text e "Text".data) []
    let sa := match eFind e "SelectAll".data with
      | some se => eGet se "state".data "False".data
      | none => "False".data
    let preview0 := if textContent.length > 80 then textContent.take 80 ++ "...".data
      else textContent
    let preview := replaceAll (replaceAll preview0 "\x0d".data " ".data)
      "\n".data " ".data
    let parts :=
      (if sa = "True".data then [ "Select All".data] else []) ++
      (if fieldTarget ≠ [] then [ "Target: ".data ++ fieldTarget] else []) ++
      (if preview ≠ [] then [ "\"".data ++ preview ++ "\"".data] else [])
    ([pad ++ pfx ++ "Insert Text [ ".data ++ joinSep " ; ".data parts ++ " ]".data],
      ind1)
  else if sid = "122".data then
    let nameCalc := orD (_get_calc e "Name".data) []
    let layoutName := match eFind e "Layout".data with
      | some le => eGet le "name".data []
      | none => []
    let style := match eFind e "NewWndStyles".data with
      | some se => eGet se "Style".data []
      | none => []
    let parts :=
      (if nameCalc ≠ [] then [ "Name: ".data ++ nameCalc] else []) ++
      (if layoutName ≠ [] then
        [ "Layout: \"".data ++ layoutName ++ "\"".data] else []) ++
      (if style ≠ [] then [ "Style: ".data ++ style] else [])
    (if parts ≠ [] then
      [pad ++ pfx ++ "New Window [ ".data ++ joinSep " ; ".data parts ++ " ]".data]
     else [pad ++ pfx ++ "New Window".data], ind1)
  else if sid = "31".data then
    let state := match eFind e "WindowState".data with
      | some we => eGet we "value".data "?".data
      | none => "?".data
    ([pad ++ pfx ++ "Adjust Window [ ".data ++ state ++ " ]".data], ind1)
  else if sid = "80".data then
    ([pad ++ pfx ++ "Refresh Window".data], ind1)
  else if sid = "90".data then
    ([pad ++ pfx ++ "Halt Script".data], ind1)
  else if sid = "226".data then
    (match eFind e "ConfigureLLMTemplate".data with
     | some tmpl =>
       let tname := orD (_get_calc tmpl "TemplateName".data) []
       let provider := eTextOr (eFind tmpl "ModelProvider".data)
       let parts :=
         (if tname ≠ [] then [ "Template: ".data ++ tname] else []) ++
         (if provider ≠ [] then [ "Provider: ".data ++ provider] else [])
       ([pad ++ pfx ++ "Configure LLM Template [ ".data ++
         joinSep " ; ".data parts ++ " ]".data], ind1)
     | none => ([pad ++ pfx ++ "Configure LLM Template".data], ind1))
  else if sid = "214".data then
    (match eFind e "LLMRequest".data with
     | some req =>
       let model := orD (_get_calc req "Model".data) []
       let action := eTextOr (eFind req "Action".data)
       let account := orD (_get_calc req "AccountName".data) []
       let prompt := orD (_get_calc req "PromptMessage".data) []
       let scope := eTextOr (eFind req "QueryScope".data)
       let target := match eFind e "Field".data with
         | some fe =>
           let t := eGet fe "table".data []
           let n := eGet fe "name".data []
           if t ≠ [] then t ++ "::".data ++ n else n
         | none => []
       let stream := match eFind e "Stream".data with
         | some se => eGet se "state".data []
         | none => []
       let tables := match eFind req "TableAliases".data with
         | some al =>
           (al.children.filter (fun c => decide (c.tag = "Table".data))).map
             (fun t => eGet t "name".data [])
         | none => []
       let parts :=
         (if action ≠ [] then [ "Action: ".data ++ action] else []) ++
         (if model ≠ [] then [ "Model: ".data ++ model] else []) ++
         (if account ≠ [] then [ "Account: ".data ++ account] else []) ++
         (if prompt ≠ [] then [ "Prompt: ".data ++ prompt] else []) ++
         (if target ≠ [] then [ "Target: ".data ++ target] else []) ++
         (if stream = "True".data then [ "Stream: On".data] else []) ++
         (if scope ≠ [] then [ "Scope: ".data ++ scope] else []) ++
         (if tables ≠ [] then [ "Tables: ".data ++ joinSep ", ".data tables]
          else [])
       ([pad ++ pfx ++ "LLM Request [ ".data ++ joinSep " ; ".data parts ++
         " ]".data], ind1)
     | none => ([pad ++ pfx ++ "LLM Request".data], ind1))
  else
    ([pad ++ pfx ++ sname ++ " [id=".data ++ sid ++ "]".data], ind1)

/-- The decompiler loop over the Step elements in document order,
threading the indentation counter. -/
def decompGo : List XmlElem → Nat → List Str
  | [], _ => []
  | e :: rest, ind =>
    let r := decompStep e ind
    r.1 ++ decompGo rest r.2

/-- Source function decompile_xml (lines 742-1073) applied to the Step
element sequence delivered by the external XML parser: emit the text
lines and join them with newlines. -/
def decompile_xml (elems : List XmlElem) : Str :=
  joinWith '\n' (decompGo elems 0)

/-- Whitespace and indentation canonicalization used to compare
round-tripped text: line-wise stripping. -/
def canonLines (t : Str) : List Str :=
  (splitChar '\n' t).map trim

/- ============================================================
   Specification-side instruction class for the round-trip
   analysis: block constructs and Set Variable rendered in
   canonical spelling, with delimiter-free calculation texts.
   ============================================================ -/

/-- The instruction class of the restricted round-trip statement. -/
inductive SInstr where
  | sIf (c : Str)
  | sElseIf (c : Str)
  | sElse
  | sEndIf
  | sLoop
  | sExitLoopIf (c : Str)
  | sEndLoop
  | sSetVar (n v : Str)
deriving DecidableEq, Repr

/-- Characters admissible in a calculation text of the restricted
class: no quote, backslash, bracket, parenthesis or newline, so that
the line is delimiter-balanced and survives stripping unchanged. -/
def okCalcChar (ch : Char) : Bool :=
  !(ch = '"') && !(ch = '\\') && !(ch = '(') && !(ch = ')') &&
  !(ch = '[') && !(ch = ']') && !(ch = '\n')

/-- A well-formed calculation text: non-empty, no leading or trailing
whitespace, admissible characters only. -/
def wfCalc (c : Str) : Bool :=
  !c.isEmpty && !(isWSc (c.headD ' ')) && !(isWSc (c.reverse.headD ' ')) &&
  c.all okCalcChar

/-- A well-formed variable name: a dollar sign followed by a non-empty
run of word characters. -/
def wfName (n : Str) : Bool :=
  match n with
  | '$' :: w => !w.isEmpty && w.all (fun ch => ch.isAlphanum || ch = '_')
  | _ => false

/-- Well-formedness of an instruction of the restricted class. -/
def wfInstr : SInstr → Bool
  | .sIf c => wfCalc c
  | .sElseIf c => wfCalc c
  | .sExitLoopIf c => wfCalc c
  | .sSetVar n v => wfName n && wfCalc v
  | _ => true

/-- The canonical text line of an instruction, as both the grammar and
the decompiler write it. -/
def render : SInstr → Str
  | .sIf c => "If [ ".data ++ c ++ " ]".data
  | .sElseIf c => "Else If [ ".data ++ c ++ " ]".data
  | .sElse => "Else".data
  | .sEndIf => "End If".data
  | .sLoop => "Loop".data
  | .sExitLoopIf c => "Exit Loop If [ ".data ++ c ++ " ]".data
  | .sEndLoop => "End Loop".data
  | .sSetVar n v =>
    "Set Variable [ ".data ++ n ++ " ; Value: ".data ++ v ++ " ]".data

/-- The parsed step the recognizer produces for a rendered
instruction. -/
def toStep (i : SInstr) (ln : Nat) : ParsedStep :=
  match i with
  | .sIf c => ⟨.if_, [( "calc".data, .s c)], ln, render i, true⟩
  | .sElseIf c => ⟨.else_if, [( "calc".data, .s c)], ln, render i, true⟩
  | .sElse => ⟨.else_, [], ln, render i, true⟩
  | .sEndIf => ⟨.end_if, [], ln, render i, true⟩
  | .sLoop => ⟨.loop, [], ln, render i, true⟩
  | .sExitLoopIf c => ⟨.exit_loop_if, [( "calc".data, .s c)], ln, render i, true⟩
  | .sEndLoop => ⟨.end_loop, [], ln, render i, true⟩
  | .sSetVar n v =>
    ⟨.set_variable, [( "name".data, .s n), ( "value".data, .s v)], ln, render i,
      true⟩

/-- The rendered multi-line program of an instruction sequence. -/
def renderText (instrs : List SInstr) : Str :=
  joinWith '\n' (instrs.map render)

/-- The step sequence the recognizer produces for a rendered
instruction sequence starting at the given line number. -/
def stepsFrom : List SInstr → Nat → List ParsedStep
  | [], _ => []
  | i :: rest, ln => toStep i ln :: stepsFrom rest (ln + 1)

end FmCp

/- ============================================================
   Theorems.  First a lemma suite about trimming, recognition,
   delimiter counting and line splitting, used by the round-trip
   analysis.
   ============================================================ -/

set_option maxRecDepth 100000

namespace FmCp

theorem trimL_cons_nws {c : Char} (l : Str) (h : isWSc c = false) :
    trimL (c :: l) = c :: l := by
  simp [trimL, List.dropWhile_cons, h]

theorem trimL_cons_ws {c : Char} (l : Str) (h : isWSc c = true) :
    trimL (c :: l) = trimL l := by
  simp [trimL, List.dropWhile_cons, h]

theorem trimR_snoc_ws {c : Char} (l : Str) (h : isWSc c = true) :
    trimR (l ++ [c]) = trimR l := by
  simp [trimR, List.dropWhile_cons, h]

theorem trimR_eq_self (l : Str) (h : isWSc (l.reverse.headD ' ') = false)
    (hne : l ≠ []) : trimR l = l := by
  unfold trimR
  match hrev : l.reverse with
  | [] => simp_all
  | c :: rest =>
    rw [hrev] at h
    simp only [List.headD_cons] at h
    rw [List.dropWhile_cons, h]
    simp [← hrev]

theorem trim_eq_self (l : Str) (hne : l ≠ [])
    (h1 : isWSc (l.headD ' ') = false) (h2 : isWSc (l.reverse.headD ' ') = false) :
    trim l = l := by
  obtain ⟨c, l', rfl⟩ : ∃ c l', l = c :: l' := by
    cases l with
    | nil => exact absurd rfl hne
    | cons a b => exact ⟨a, b, rfl⟩
  unfold trim
  rw [trimL_cons_nws _ (by simpa using h1)]
  exact trimR_eq_self _ h2 hne

theorem wfCalc_parts {c : Str} (h : wfCalc c = true) :
    c ≠ [] ∧ isWSc (c.headD ' ') = false ∧ isWSc (c.reverse.headD ' ') = false := by
  unfold wfCalc at h
  simp only [Bool.and_eq_true, Bool.not_eq_true'] at h
  refine ⟨?_, h.1.1.2, h.1.2⟩
  intro hc
  subst hc
  simp [List.isEmpty] at h

theorem trim_wrap {c : Str} (h : wfCalc c = true) :
    trim (' ' :: (c ++ [' '])) = c := by
  obtain ⟨hne, hh, hl⟩ := wfCalc_parts h
  obtain ⟨ch, c', rfl⟩ : ∃ ch c', c = ch :: c' := by
    cases c with
    | nil => exact absurd rfl hne
    | cons a b => exact ⟨a, b, rfl⟩
  unfold trim
  rw [trimL_cons_ws _ (by decide)]
  rw [show (ch :: c') ++ [' '] = ch :: (c' ++ [' ']) from rfl]
  rw [trimL_cons_nws _ (by simpa using hh)]
  rw [show ch :: (c' ++ [' ']) = (ch :: c') ++ [' '] from rfl]
  rw [trimR_snoc_ws _ (by decide)]
  exact trimR_eq_self _ hl hne

theorem brBody_sp {c : Str} (h : wfCalc c = true) :
    brBody (' ' :: (c ++ [' ', ']'])) = some c := by
  obtain ⟨hne, _, _⟩ := wfCalc_parts h
  unfold brBody
  rw [show (' ' :: (c ++ [' ', ']'])) = ((' ' :: (c ++ [' '])) ++ [']']) by simp]
  rw [List.reverse_append]
  simp only [List.reverse_cons, List.reverse_nil, List.nil_append, List.cons_append]
  rw [List.reverse_append]
  simp only [List.reverse_reverse, List.reverse_cons, List.reverse_nil,
    List.nil_append, List.append_assoc, List.singleton_append]
  rw [trim_wrap h]
  simp [hne]

theorem if_bool_false {α : Sort _} {c : Bool} (h : c = false) (a b : α) :
    (if c = true then a else b) = b := by
  subst h
  simp

theorem recognize_sIf {c : Str} (h : wfCalc c = true) (ln : Nat) :
    recognize ( "If [ ".data ++ c ++ " ]".data) ln =
      some ⟨.if_, [( "calc".data, .s c)], ln, "If [ ".data ++ c ++ " ]".data, true⟩ := by
  have e1 : mOnOff "Set Error Capture".data ( "If [ ".data ++ c ++ " ]".data) = none := rfl
  have e2 : mOnOff "Allow User Abort".data ( "If [ ".data ++ c ++ " ]".data) = none := rfl
  have e3 : mSetVariable ( "If [ ".data ++ c ++ " ]".data) ln = none := rfl
  have e4 : afterKwBr "Set Field By Name".data ( "If [ ".data ++ c ++ " ]".data) = none := rfl
  have e5 : afterKwBr "Set Field".data ( "If [ ".data ++ c ++ " ]".data) = none := rfl
  have e6 : afterKwBr "If".data ( "If [ ".data ++ c ++ " ]".data) =
      some (' ' :: (c ++ [' ', ']'])) := rfl
  unfold recognize recognizeAfterSFBN recognizeTail
  rw [e1, e2, e3, e4, e5]
  dsimp only
  unfold mCalcKind
  rw [e6]
  dsimp only
  rw [brBody_sp h]

theorem recognize_sElseIf {c : Str} (h : wfCalc c = true) (ln : Nat) :
    recognize ( "Else If [ ".data ++ c ++ " ]".data) ln =
      some ⟨.else_if, [( "calc".data, .s c)], ln,
        "Else If [ ".data ++ c ++ " ]".data, true⟩ := by
  have e1 : mOnOff "Set Error Capture".data ( "Else If [ ".data ++ c ++ " ]".data) = none := rfl
  have e2 : mOnOff "Allow User Abort".data ( "Else If [ ".data ++ c ++ " ]".data) = none := rfl
  have e3 : mSetVariable ( "Else If [ ".data ++ c ++ " ]".data) ln = none := rfl
  have e4 : afterKwBr "Set Field By Name".data ( "Else If [ ".data ++ c ++ " ]".data) = none := rfl
  have e5 : afterKwBr "Set Field".data ( "Else If [ ".data ++ c ++ " ]".data) = none := rfl
  have e6 : afterKwBr "If".data ( "Else If [ ".data ++ c ++ " ]".data) = none := rfl
  have e7 : afterKwBr "Else If".data ( "Else If [ ".data ++ c ++ " ]".data) =
      some (' ' :: (c ++ [' ', ']'])) := rfl
  unfold recognize recognizeAfterSFBN recognizeTail
  rw [e1, e2, e3, e4, e5]
  dsimp only
  unfold mCalcKind
  rw [e6]
  dsimp only
  rw [e7]
  dsimp only
  rw [brBody_sp h]

theorem recognize_sExitLoopIf {c : Str} (h : wfCalc c = true) (ln : Nat) :
    recognize ( "Exit Loop If [ ".data ++ c ++ " ]".data) ln =
      some ⟨.exit_loop_if, [( "calc".data, .s c)], ln,
        "Exit Loop If [ ".data ++ c ++ " ]".data, true⟩ := by
  have e1 : mOnOff "Set Error Capture".data ( "Exit Loop If [ ".data ++ c ++ " ]".data) = none := rfl
  have e2 : mOnOff "Allow User Abort".data ( "Exit Loop If [ ".data ++ c ++ " ]".data) = none := rfl
  have e3 : mSetVariable ( "Exit Loop If [ ".data ++ c ++ " ]".data) ln = none := rfl
  have e4 : afterKwBr "Set Field By Name".data ( "Exit Loop If [ ".data ++ c ++ " ]".data) = none := rfl
  have e5 : afterKwBr "Set Field".data ( "Exit Loop If [ ".data ++ c ++ " ]".data) = none := rfl
  have e6 : afterKwBr "If".data ( "Exit Loop If [ ".data ++ c ++ " ]".data) = none := rfl
  have e7 : afterKwBr "Else If".data ( "Exit Loop If [ ".data ++ c ++ " ]".data) = none := rfl
  have e8 : kwBare "Else".data ( "Exit Loop If [ ".data ++ c ++ " ]".data) = false := rfl
  have e9 : kwBare "End If".data ( "Exit Loop If [ ".data ++ c ++ " ]".data) = false := rfl
  have e10 : kwBare "Loop".data ( "Exit Loop If [ ".data ++ c ++ " ]".data) = false := rfl
  have e11 : afterKwBr "Exit Loop If".data ( "Exit Loop If [ ".data ++ c ++ " ]".data) =
      some (' ' :: (c ++ [' ', ']'])) := rfl
  unfold recognize recognizeAfterSFBN recognizeTail
  rw [e1, e2, e3, e4, e5]
  dsimp only
  unfold mCalcKind
  rw [e6]
  dsimp only
  rw [e7]
  dsimp only
  rw [if_bool_false e8, if_bool_false e9, if_bool_false e10]
  rw [e11]
  dsimp only
  rw [brBody_sp h]

theorem takeWhile_append_stop {p : Char → Bool} {w : Str} {x : Char} {t : Str}
    (hw : ∀ ch ∈ w, p ch = true) (hx : p x = false) :
    List.takeWhile p (w ++ x :: t) = w := by
  induction w with
  | nil => simp [List.takeWhile_cons, hx]
  | cons a as ih =>
    have ha : p a = true := hw a (by simp)
    have ihr := ih (fun ch hch => hw ch (by simp [hch]))
    simp [List.takeWhile_cons, ha, ihr]

theorem wfName_parts {n : Str} (h : wfName n = true) :
    ∃ wc w', n = '$' :: wc :: w' ∧ (wc.isAlphanum || wc = '_') = true ∧
      ∀ ch ∈ w', (ch.isAlphanum || ch = '_') = true := by
  cases n with
  | nil => simp [wfName] at h
  | cons c rest =>
    by_cases hc : c = '$'
    · subst hc
      simp only [wfName] at h
      cases rest with
      | nil => simp [List.isEmpty] at h
      | cons wc w' =>
        simp only [Bool.and_eq_true, List.all_cons, List.all_eq_true] at h
        exact ⟨wc, w', rfl, h.2.1, h.2.2⟩
    · exfalso
      unfold wfName at h
      split at h
      · next heq =>
        apply hc
        have := congrArg (fun l => List.headD l ' ') heq
        simpa using this
      · simp at h

theorem word_isWordDot {ch : Char} (h : (ch.isAlphanum || ch = '_') = true) :
    isWordDot ch = true := by
  simp only [isWordDot, Bool.or_eq_true] at *
  rcases h with h | h
  · exact Or.inl (Or.inl h)
  · exact Or.inl (Or.inr h)

theorem recognize_sSetVar {n v : Str} (hn : wfName n = true) (hv : wfCalc v = true)
    (ln : Nat) :
    recognize ( "Set Variable [ ".data ++ n ++ " ; Value: ".data ++ v ++ " ]".data) ln =
      some ⟨.set_variable, [( "name".data, .s n), ( "value".data, .s v)], ln,
        "Set Variable [ ".data ++ n ++ " ; Value: ".data ++ v ++ " ]".data, true⟩ := by
  obtain ⟨wc, w', rfl, hwc, hw'⟩ := wfName_parts hn
  have hwcne : ¬ (wc = '$') := by
    intro hh
    rw [hh] at hwc
    simp at hwc
  have e1 : mOnOff "Set Error Capture".data
      ( "Set Variable [ ".data ++ ('$' :: wc :: w') ++ " ; Value: ".data ++ v ++ " ]".data) =
      none := rfl
  have e2 : mOnOff "Allow User Abort".data
      ( "Set Variable [ ".data ++ ('$' :: wc :: w') ++ " ; Value: ".data ++ v ++ " ]".data) =
      none := rfl
  have ea : afterKwBr "Set Variable".data
      ( "Set Variable [ ".data ++ ('$' :: wc :: w') ++ " ; Value: ".data ++ v ++ " ]".data) =
      some (' ' :: '$' :: wc :: (w' ++ " ; Value: ".data ++ v ++ " ]".data)) := rfl
  have et : trimL (' ' :: '$' :: wc :: (w' ++ " ; Value: ".data ++ v ++ " ]".data)) =
      '$' :: wc :: (w' ++ " ; Value: ".data ++ v ++ " ]".data) := rfl
  have hshape : (wc :: (w' ++ " ; Value: ".data ++ v ++ " ]".data)) =
      (wc :: w') ++ (' ' :: ( "; Value: ".data ++ (v ++ " ]".data))) := by
    simp [List.append_assoc]
  have htw : List.takeWhile isWordDot
      (wc :: (w' ++ " ; Value: ".data ++ v ++ " ]".data)) = wc :: w' := by
    rw [hshape]
    exact takeWhile_append_stop
      (fun ch hch => by
        rcases List.mem_cons.mp hch with h | h
        · exact word_isWordDot (h ▸ hwc)
        · exact word_isWordDot (hw' ch h))
      (by decide)
  have hdrop : List.drop (wc :: w').length
      (wc :: (w' ++ " ; Value: ".data ++ v ++ " ]".data)) =
      ' ' :: ( "; Value: ".data ++ (v ++ " ]".data)) := by
    rw [hshape]
    exact List.drop_left _ _
  have hr4 : trimL (' ' :: ( "; Value: ".data ++ (v ++ " ]".data))) =
      ';' :: ( " Value: ".data ++ (v ++ " ]".data)) := rfl
  have hcp : ciPrefix "value:".data (trimL ( " Value: ".data ++ (v ++ " ]".data))) =
      some (' ' :: (v ++ " ]".data)) := rfl
  have hbb : brBody (' ' :: (v ++ " ]".data)) = some v := brBody_sp hv
  unfold recognize
  rw [e1, e2]
  dsimp only
  unfold mSetVariable
  rw [ea]
  dsimp only
  rw [et]
  dsimp only
  simp only [List.head?_cons, Option.some.injEq]
  rw [if_neg hwcne, if_neg hwcne]
  rw [htw]
  rw [if_neg (by simp)]
  rw [hdrop, hr4]
  simp only [hcp, hbb]
  simp

theorem trim_render {i : SInstr} (hw : wfInstr i = true) :
    trim (render i) = render i := by
  cases i with
  | sIf c =>
    refine trim_eq_self _ (by simp [render]) ((by decide : isWSc 'I' = false)) ?_
    simp only [render, List.append_assoc, List.reverse_append]
    exact (by decide : isWSc ']' = false)
  | sElseIf c =>
    refine trim_eq_self _ (by simp [render]) ((by decide : isWSc 'E' = false)) ?_
    simp only [render, List.append_assoc, List.reverse_append]
    exact (by decide : isWSc ']' = false)
  | sExitLoopIf c =>
    refine trim_eq_self _ (by simp [render]) ((by decide : isWSc 'E' = false)) ?_
    simp only [render, List.append_assoc, List.reverse_append]
    exact (by decide : isWSc ']' = false)
  | sSetVar n v =>
    refine trim_eq_self _ (by simp [render]) ((by decide : isWSc 'S' = false)) ?_
    simp only [render, List.append_assoc, List.reverse_append]
    exact (by decide : isWSc ']' = false)
  | sElse => decide
  | sEndIf => decide
  | sLoop => decide
  | sEndLoop => decide

theorem parse_line_render {i : SInstr} (hw : wfInstr i = true) (ln : Nat) :
    parse_line (render i) ln = .step (toStep i ln) := by
  unfold parse_line parseStripped
  rw [trim_render hw]
  cases i with
  | sIf c =>
    have h2 : parseStrippedF ((render (SInstr.sIf c)).length + 1)
        (render (SInstr.sIf c)) ln =
        (match recognize (render (SInstr.sIf c)) ln with
         | some st => PLRes.step st
         | none => PLRes.err ( "Line ".data ++ natStr ln ++
             ": Unrecognized step: ".data ++ render (SInstr.sIf c))) := rfl
    rw [h2]
    rw [show recognize (render (SInstr.sIf c)) ln =
      recognize ( "If [ ".data ++ c ++ " ]".data) ln from rfl]
    rw [recognize_sIf (by simpa [wfInstr] using hw) ln]
    rfl
  | sElseIf c =>
    have h2 : parseStrippedF ((render (SInstr.sElseIf c)).length + 1)
        (render (SInstr.sElseIf c)) ln =
        (match recognize (render (SInstr.sElseIf c)) ln with
         | some st => PLRes.step st
         | none => PLRes.err ( "Line ".data ++ natStr ln ++
             ": Unrecognized step: ".data ++ render (SInstr.sElseIf c))) := rfl
    rw [h2]
    rw [show recognize (render (SInstr.sElseIf c)) ln =
      recognize ( "Else If [ ".data ++ c ++ " ]".data) ln from rfl]
    rw [recognize_sElseIf (by simpa [wfInstr] using hw) ln]
    rfl
  | sExitLoopIf c =>
    have h2 : parseStrippedF ((render (SInstr.sExitLoopIf c)).length + 1)
        (render (SInstr.sExitLoopIf c)) ln =
        (match recognize (render (SInstr.sExitLoopIf c)) ln with
         | some st => PLRes.step st
         | none => PLRes.err ( "Line ".data ++ natStr ln ++
             ": Unrecognized step: ".data ++ render (SInstr.sExitLoopIf c))) := rfl
    rw [h2]
    rw [show recognize (render (SInstr.sExitLoopIf c)) ln =
      recognize ( "Exit Loop If [ ".data ++ c ++ " ]".data) ln from rfl]
    rw [recognize_sExitLoopIf (by simpa [wfInstr] using hw) ln]
    rfl
  | sSetVar n v =>
    have hw2 : wfName n = true ∧ wfCalc v = true := by
      simpa [wfInstr] using hw
    have h2 : parseStrippedF ((render (SInstr.sSetVar n v)).length + 1)
        (render (SInstr.sSetVar n v)) ln =
        (match recognize (render (SInstr.sSetVar n v)) ln with
         | some st => PLRes.step st
         | none => PLRes.err ( "Line ".data ++ natStr ln ++
             ": Unrecognized step: ".data ++ render (SInstr.sSetVar n v))) := rfl
    rw [h2]
    rw [show recognize (render (SInstr.sSetVar n v)) ln =
      recognize ( "Set Variable [ ".data ++ n ++ " ; Value: ".data ++ v ++
        " ]".data) ln from rfl]
    rw [recognize_sSetVar hw2.1 hw2.2 ln]
    rfl
  | sElse => rfl
  | sEndIf => rfl
  | sLoop => rfl
  | sEndLoop => rfl

theorem okCalc_parts {ch : Char} (h : okCalcChar ch = true) :
    ch ≠ '"' ∧ ch ≠ '\\' ∧ ch ≠ '(' ∧ ch ≠ ')' ∧ ch ≠ '[' ∧ ch ≠ ']' ∧ ch ≠ '\n' := by
  simp only [okCalcChar, Bool.and_eq_true, Bool.not_eq_true', decide_eq_false_iff_not]
    at h
  exact ⟨h.1.1.1.1.1.1, h.1.1.1.1.1.2, h.1.1.1.1.2, h.1.1.1.2, h.1.1.2, h.1.2, h.2⟩

theorem word_okCalc {ch : Char} (h : (ch.isAlphanum || ch = '_') = true) :
    okCalcChar ch = true := by
  simp only [okCalcChar, Bool.and_eq_true, Bool.not_eq_true', decide_eq_false_iff_not]
  refine ⟨⟨⟨⟨⟨⟨?_, ?_⟩, ?_⟩, ?_⟩, ?_⟩, ?_⟩, ?_⟩ <;>
    (rintro rfl; exact absurd h (by decide))

theorem bStep_neutral {st : BState} {ch : Char} (h : okCalcChar ch = true)
    (he : st.esc = false) : bStep st ch = st := by
  obtain ⟨h1, h2, h3, h4, h5, h6, _⟩ := okCalc_parts h
  unfold bStep
  rw [he]
  simp only [Bool.false_eq_true, if_false, if_neg h2, if_neg h1, if_neg h3,
    if_neg h4, if_neg h5, if_neg h6]
  split <;> rfl

theorem bFold_neutral {c : Str} (h : ∀ ch ∈ c, okCalcChar ch = true) {st : BState}
    (he : st.esc = false) : List.foldl bStep st c = st := by
  induction c with
  | nil => rfl
  | cons a as ih =>
    rw [List.foldl_cons, bStep_neutral (h a (by simp)) he]
    exact ih (fun ch hch => h ch (by simp [hch]))

theorem wfCalc_all_ok {c : Str} (h : wfCalc c = true) :
    ∀ ch ∈ c, okCalcChar ch = true := by
  unfold wfCalc at h
  simp only [Bool.and_eq_true, List.all_eq_true] at h
  exact h.2

theorem wfName_all_ok {n : Str} (h : wfName n = true) :
    ∀ ch ∈ n, okCalcChar ch = true := by
  obtain ⟨wc, w', rfl, hwc, hw'⟩ := wfName_parts h
  intro ch hch
  rcases List.mem_cons.mp hch with rfl | hch2
  · decide
  · rcases List.mem_cons.mp hch2 with rfl | hch3
    · exact word_okCalc hwc
    · exact word_okCalc (hw' ch hch3)

theorem count_render {i : SInstr} (hw : wfInstr i = true) :
    _count_delimiters (render i) = (0, 0) := by
  cases i with
  | sIf c =>
    have hc : ∀ ch ∈ c, okCalcChar ch = true := wfCalc_all_ok (by simpa [wfInstr] using hw)
    unfold _count_delimiters bStateAt
    rw [show render (SInstr.sIf c) = ( "If [ ".data ++ c) ++ " ]".data by
      simp [render]]
    rw [List.foldl_append, List.foldl_append]
    rw [show List.foldl bStep bInit ( "If [ ".data) = ⟨0, 1, false, false⟩ from rfl]
    rw [bFold_neutral hc rfl]
    rfl
  | sElseIf c =>
    have hc : ∀ ch ∈ c, okCalcChar ch = true := wfCalc_all_ok (by simpa [wfInstr] using hw)
    unfold _count_delimiters bStateAt
    rw [show render (SInstr.sElseIf c) = ( "Else If [ ".data ++ c) ++ " ]".data by
      simp [render]]
    rw [List.foldl_append, List.foldl_append]
    rw [show List.foldl bStep bInit ( "Else If [ ".data) = ⟨0, 1, false, false⟩ from rfl]
    rw [bFold_neutral hc rfl]
    rfl
  | sExitLoopIf c =>
    have hc : ∀ ch ∈ c, okCalcChar ch = true := wfCalc_all_ok (by simpa [wfInstr] using hw)
    unfold _count_delimiters bStateAt
    rw [show render (SInstr.sExitLoopIf c) = ( "Exit Loop If [ ".data ++ c) ++ " ]".data by
      simp [render]]
    rw [List.foldl_append, List.foldl_append]
    rw [show List.foldl bStep bInit ( "Exit Loop If [ ".data) = ⟨0, 1, false, false⟩ from rfl]
    rw [bFold_neutral hc rfl]
    rfl
  | sSetVar n v =>
    have hw2 : wfName n = true ∧ wfCalc v = true := by simpa [wfInstr] using hw
    have hn : ∀ ch ∈ n, okCalcChar ch = true := wfName_all_ok hw2.1
    have hv : ∀ ch ∈ v, okCalcChar ch = true := wfCalc_all_ok hw2.2
    unfold _count_delimiters bStateAt
    rw [show render (SInstr.sSetVar n v) =
      ((( "Set Variable [ ".data ++ n) ++ " ; Value: ".data) ++ v) ++ " ]".data by
      simp [render]]
    rw [List.foldl_append, List.foldl_append, List.foldl_append, List.foldl_append]
    rw [show List.foldl bStep bInit ( "Set Variable [ ".data) = ⟨0, 1, false, false⟩
      from rfl]
    rw [bFold_neutral hn rfl]
    rw [show List.foldl bStep (⟨0, 1, false, false⟩ : BState) ( " ; Value: ".data) =
      ⟨0, 1, false, false⟩ from rfl]
    rw [bFold_neutral hv rfl]
    rfl
  | sElse => rfl
  | sEndIf => rfl
  | sLoop => rfl
  | sEndLoop => rfl

theorem splitChar_no_sep {sep : Char} {l : Str} (h : sep ∉ l) :
    splitChar sep l = [l] := by
  induction l with
  | nil => rfl
  | cons c rest ih =>
    have hc : ¬ (c = sep) := fun hh => h (by simp [hh])
    have hr := ih (fun hh => h (by simp [hh]))
    simp only [splitChar, hr, if_neg hc]

theorem splitChar_append_sep {sep : Char} {l t : Str} (h : sep ∉ l) :
    splitChar sep (l ++ sep :: t) = l :: splitChar sep t := by
  induction l with
  | nil => simp [splitChar]
  | cons c rest ih =>
    have hc : ¬ (c = sep) := fun hh => h (by simp [hh])
    have hr := ih (fun hh => h (by simp [hh]))
    simp only [List.cons_append, splitChar, if_neg hc]
    rw [show splitChar sep (rest.append (sep :: t)) = rest :: splitChar sep t from hr]

theorem split_join {ls : List Str} (hne : ls ≠ []) (h : ∀ l ∈ ls, '\n' ∉ l) :
    splitChar '\n' (joinWith '\n' ls) = ls := by
  induction ls with
  | nil => exact absurd rfl hne
  | cons l rest ih =>
    cases rest with
    | nil =>
      simp only [joinWith]
      exact splitChar_no_sep (h l (by simp))
    | cons r rs =>
      rw [show joinWith '\n' (l :: r :: rs) = l ++ '\n' :: joinWith '\n' (r :: rs)
        from rfl]
      rw [splitChar_append_sep (h l (by simp))]
      rw [ih (by simp) (fun x hx => h x (by simp [hx]))]

theorem render_no_nl {i : SInstr} (hw : wfInstr i = true) : '\n' ∉ render i := by
  cases i with
  | sIf c =>
    have hc := wfCalc_all_ok (show wfCalc c = true by simpa [wfInstr] using hw)
    simp only [render, List.mem_append]
    rintro ((hh | hh) | hh)
    · simp at hh
    · exact absurd (okCalc_parts (hc _ hh)).2.2.2.2.2.2 (by simp)
    · simp at hh
  | sElseIf c =>
    have hc := wfCalc_all_ok (show wfCalc c = true by simpa [wfInstr] using hw)
    simp only [render, List.mem_append]
    rintro ((hh | hh) | hh)
    · simp at hh
    · exact absurd (okCalc_parts (hc _ hh)).2.2.2.2.2.2 (by simp)
    · simp at hh
  | sExitLoopIf c =>
    have hc := wfCalc_all_ok (show wfCalc c = true by simpa [wfInstr] using hw)
    simp only [render, List.mem_append]
    rintro ((hh | hh) | hh)
    · simp at hh
    · exact absurd (okCalc_parts (hc _ hh)).2.2.2.2.2.2 (by simp)
    · simp at hh
  | sSetVar n v =>
    have hw2 : wfName n = true ∧ wfCalc v = true := by simpa [wfInstr] using hw
    have hn := wfName_all_ok hw2.1
    have hv := wfCalc_all_ok hw2.2
    simp only [render, List.mem_append]
    rintro ((((hh | hh) | hh) | hh) | hh)
    · simp at hh
    · exact absurd (okCalc_parts (hn _ hh)).2.2.2.2.2.2 (by simp)
    · simp at hh
    · exact absurd (okCalc_parts (hv _ hh)).2.2.2.2.2.2 (by simp)
    · simp at hh
  | sElse => decide
  | sEndIf => decide
  | sLoop => decide
  | sEndLoop => decide

/-- Claim C2 (amended): for the input consisting of the line If [ x = 1 ]
followed by the line End Loop, validate_structure produces exactly two
structural errors in order: the mismatch error citing that End Loop was found
while the current open block is the If opened on line 1, followed by the
unclosed-If report for that block. -/
theorem C2_if_endloop_two_errors :
    (validate_structure (parse_text "If [ x = 1 ]\nEnd Loop".data).1).errors =
      [ "Line 2: ERROR — End Loop found but current open block is If (opened line 1)".data,
        "Line 1: ERROR — Unclosed If — missing End If".data] := by
  decide

/-- Counterexample to claim C2 as stated: the error list for that input does
not have length one. -/
theorem C2_not_exactly_one_error :
    ((validate_structure (parse_text "If [ x = 1 ]\nEnd Loop".data).1).errors).length ≠ 1 := by
  decide

/-- Claim C3, settled against the code as a defect: the recognizer parses
Set Field [ Table::Field ; 1 ] into a set_field step with no recognition
error, and step_to_xml maps every set_field step to the unknown-step XML
comment fallback, so the fallback is reachable on recognizer output. -/
theorem C3_set_field_fallback :
    ((parse_text "Set Field [ Table::Field ; 1 ]".data).1.map
      (fun st => st.step_type)) = [SType.set_field] ∧
    (parse_text "Set Field [ Table::Field ; 1 ]".data).2 = [] ∧
    ∀ ps ln raw en, step_to_xml ⟨SType.set_field, ps, ln, raw, en⟩ =
      "<!-- Unknown step: set_field -->".data :=
  ⟨by decide, by decide, fun ps ln raw en => rfl⟩

/-- Claim C7 (confirmed): the two physical lines Set Variable [ $x ; Value: (1+
and 2) ] accumulate into one logical line and parse to a single set_variable
step with name $x, value (1+ 2), line number 1 and no errors. -/
theorem C7_accumulator :
    parse_text "Set Variable [ $x ; Value: (1+\n2) ]".data =
      ([⟨SType.set_variable,
         [( "name".data, .s "$x".data), ( "value".data, .s "(1+ 2)".data)],
         1, "Set Variable [ $x ; Value: (1+ 2) ]".data, true⟩], []) := by
  decide

/-- Claim C5 (confirmed): the three lines # a, # b, # c parse to exactly one
comment step with text a-newline-b-newline-c and decompile back to three
hash-prefixed lines; and two adjacent steps are never merged when their
enabled flags differ or when either is not a comment, nor across an
intervening non-comment step. -/
theorem C5_comment_merge :
    ((parse_text "# a\n# b\n# c".data).2 = [] ∧
     (parse_text "# a\n# b\n# c".data).1.map
       (fun st => (st.step_type, pGetS st.params "text".data [])) =
       [(SType.comment, "a\nb\nc".data)] ∧
     decompile_xml (generate_elems (parse_text "# a\n# b\n# c".data).1) =
       "# a\n# b\n# c".data) ∧
    (∀ p c : ParsedStep, p.enabled ≠ c.enabled → _merge_comments [p, c] = [p, c]) ∧
    (∀ p c : ParsedStep, c.step_type ≠ SType.comment → _merge_comments [p, c] = [p, c]) ∧
    (∀ p m c : ParsedStep, m.step_type ≠ SType.comment →
      _merge_comments [p, m, c] = [p, m, c]) := by
  refine ⟨⟨by decide, by decide, by decide⟩, ?_, ?_, ?_⟩
  · intro p c h
    simp only [_merge_comments, mergeGo, Bool.and_eq_true, decide_eq_true_eq]
    rw [if_neg (by rintro ⟨-, heq⟩; exact h heq.symm)]
  · intro p c h
    simp only [_merge_comments, mergeGo, Bool.and_eq_true, decide_eq_true_eq]
    rw [if_neg (by rintro ⟨⟨hc, -⟩, -⟩; exact h hc)]
  · intro p m c h
    simp only [_merge_comments, mergeGo, Bool.and_eq_true, decide_eq_true_eq]
    rw [if_neg (by rintro ⟨⟨hm, -⟩, -⟩; exact h hm),
      if_neg (by rintro ⟨⟨-, hm⟩, -⟩; exact h hm)]

/-- Counterexample to claim C9 as stated: a disabled set_field step is
emitted byte-identically to the enabled one, with no enable attribute
reading False anywhere in the emission. -/
theorem C9_set_field_no_enable :
    encodeStep ⟨SType.set_field, [], 1, [], false⟩ =
      encodeStep ⟨SType.set_field, [], 1, [], true⟩ ∧
    containsSub (encodeStep ⟨SType.set_field, [], 1, [], false⟩)
      "enable=\"False\"".data = false := by
  decide

/-- Claim C10 (confirmed): generate_xml is the envelope header, then exactly
the per-step emissions concatenated in input order (one per input step),
then the envelope footer. -/
theorem C10_envelope (steps : List ParsedStep) :
    generate_xml steps =
      "<fmxmlsnippet type=\"FMObjectList\">".data ++
        (steps.map encodeStep).flatten ++ "</fmxmlsnippet>".data ∧
    (steps.map encodeStep).length = steps.length := by
  refine ⟨?_, by simp⟩
  simp [generate_xml, List.flatten_append, List.flatten_cons, List.append_assoc]

/-- Counterexample to claim C4 as stated: on this input the splitter keeps
the whole string as a single parameter, although the semicolon at index 11
lies outside every quoted run and at zero depths as the balancer computes
them (the two scanners toggle quotes differently inside parentheses). -/
theorem C4_balancer_quote_divergence :
    _split_params "(\"a)\" ; b) ; c".data = [ "(\"a)\" ; b) ; c".data] ∧
    ( "(\"a)\" ; b) ; c".data).get? 11 = some ';' ∧
    bStateAt (( "(\"a)\" ; b) ; c".data).take 11) = ⟨0, 0, false, false⟩ := by
  decide

/-- Claim C9 (amended): for every step whose kind is not set_field, the
enabled and disabled emissions are byte-identical except that the single
enable attribute reads False instead of True. -/
theorem C9_enable_flip (s : ParsedStep) (h : s.step_type ≠ SType.set_field) :
    ∃ rest,
      encodeStep { s with enabled := true } = "<Step enable=\"True\" ".data ++ rest ∧
      encodeStep { s with enabled := false } = "<Step enable=\"False\" ".data ++ rest := by
  obtain ⟨st, ps, ln, raw, en⟩ := s
  cases st
  all_goals try exact ⟨_, rfl, rfl⟩
  case set_field => exact absurd rfl h
  case exit_script =>
    have key : ∀ en2 : Bool, step_to_xml ⟨SType.exit_script, ps, ln, raw, en2⟩ =
        (if pGetS ps "result".data [] ≠ [] then
          "<Step enable=\"True\" id=\"103\" name=\"Exit Script\"><Calculation>".data ++
            _cdata (pGetS ps "result".data []) ++ "</Calculation></Step>".data
        else
          "<Step enable=\"True\" id=\"103\" name=\"Exit Script\"></Step>".data) :=
      fun _ => rfl
    have eT : encodeStep ⟨SType.exit_script, ps, ln, raw, true⟩ =
        step_to_xml ⟨SType.exit_script, ps, ln, raw, true⟩ := rfl
    have eF : encodeStep ⟨SType.exit_script, ps, ln, raw, false⟩ =
        replaceFirst (step_to_xml ⟨SType.exit_script, ps, ln, raw, false⟩)
          "enable=\"True\"".data "enable=\"False\"".data := rfl
    by_cases h2 : pGetS ps "result".data [] = []
    · have hT : encodeStep ⟨SType.exit_script, ps, ln, raw, true⟩ =
          "<Step enable=\"True\" ".data ++
            "id=\"103\" name=\"Exit Script\"></Step>".data := by
        rw [eT, key, if_neg (by simp [h2])]
        rfl
      have hF : encodeStep ⟨SType.exit_script, ps, ln, raw, false⟩ =
          "<Step enable=\"False\" ".data ++
            "id=\"103\" name=\"Exit Script\"></Step>".data := by
        rw [eF, key, if_neg (by simp [h2])]
        rfl
      exact ⟨_, hT, hF⟩
    · have hT : encodeStep ⟨SType.exit_script, ps, ln, raw, true⟩ =
          "<Step enable=\"True\" ".data ++
            ( "id=\"103\" name=\"Exit Script\"><Calculation>".data ++
              _cdata (pGetS ps "result".data []) ++ "</Calculation></Step>".data) := by
        rw [eT, key, if_pos h2]
        rfl
      have hF : encodeStep ⟨SType.exit_script, ps, ln, raw, false⟩ =
          "<Step enable=\"False\" ".data ++
            ( "id=\"103\" name=\"Exit Script\"><Calculation>".data ++
              _cdata (pGetS ps "result".data []) ++ "</Calculation></Step>".data) := by
        rw [eF, key, if_pos h2]
        rfl
      exact ⟨_, hT, hF⟩
  case go_to_layout =>
    have key : ∀ en2 : Bool, step_to_xml ⟨SType.go_to_layout, ps, ln, raw, en2⟩ =
        (if _strip_outer_quotes (pGetS ps "layout".data []) ≠ [] then
          "<Step enable=\"True\" id=\"6\" name=\"Go to Layout\"><LayoutDestination value=\"ByName\"></LayoutDestination><Layout id=\"0\" name=\"".data ++
            _strip_outer_quotes (pGetS ps "layout".data []) ++ "\"></Layout></Step>".data
        else
          "<Step enable=\"True\" id=\"6\" name=\"Go to Layout\"><LayoutDestination value=\"CurrentLayout\"></LayoutDestination><Layout id=\"0\" name=\"\"></Layout></Step>".data) :=
      fun _ => rfl
    have eT : encodeStep ⟨SType.go_to_layout, ps, ln, raw, true⟩ =
        step_to_xml ⟨SType.go_to_layout, ps, ln, raw, true⟩ := rfl
    have eF : encodeStep ⟨SType.go_to_layout, ps, ln, raw, false⟩ =
        replaceFirst (step_to_xml ⟨SType.go_to_layout, ps, ln, raw, false⟩)
          "enable=\"True\"".data "enable=\"False\"".data := rfl
    by_cases h2 : _strip_outer_quotes (pGetS ps "layout".data []) = []
    · have hT : encodeStep ⟨SType.go_to_layout, ps, ln, raw, true⟩ =
          "<Step enable=\"True\" ".data ++
            "id=\"6\" name=\"Go to Layout\"><LayoutDestination value=\"CurrentLayout\"></LayoutDestination><Layout id=\"0\" name=\"\"></Layout></Step>".data := by
        rw [eT, key, if_neg (by simp [h2])]
        rfl
      have hF : encodeStep ⟨SType.go_to_layout, ps, ln, raw, false⟩ =
          "<Step enable=\"False\" ".data ++
            "id=\"6\" name=\"Go to Layout\"><LayoutDestination value=\"CurrentLayout\"></LayoutDestination><Layout id=\"0\" name=\"\"></Layout></Step>".data := by
        rw [eF, key, if_neg (by simp [h2])]
        rfl
      exact ⟨_, hT, hF⟩
    · have hT : encodeStep ⟨SType.go_to_layout, ps, ln, raw, true⟩ =
          "<Step enable=\"True\" ".data ++
            ( "id=\"6\" name=\"Go to Layout\"><LayoutDestination value=\"ByName\"></LayoutDestination><Layout id=\"0\" name=\"".data ++
              _strip_outer_quotes (pGetS ps "layout".data []) ++ "\"></Layout></Step>".data) := by
        rw [eT, key, if_pos h2]
        rfl
      have hF : encodeStep ⟨SType.go_to_layout, ps, ln, raw, false⟩ =
          "<Step enable=\"False\" ".data ++
            ( "id=\"6\" name=\"Go to Layout\"><LayoutDestination value=\"ByName\"></LayoutDestination><Layout id=\"0\" name=\"".data ++
              _strip_outer_quotes (pGetS ps "layout".data []) ++ "\"></Layout></Step>".data) := by
        rw [eF, key, if_pos h2]
        rfl
      exact ⟨_, hT, hF⟩

/-- Witness for claim C9 at a concrete new_record step. -/
theorem C9_enable_flip_witness :
    ∃ rest,
      encodeStep { (⟨SType.new_record, [], 1, [], true⟩ : ParsedStep) with
        enabled := true } = "<Step enable=\"True\" ".data ++ rest ∧
      encodeStep { (⟨SType.new_record, [], 1, [], true⟩ : ParsedStep) with
        enabled := false } = "<Step enable=\"False\" ".data ++ rest :=
  C9_enable_flip ⟨SType.new_record, [], 1, [], true⟩ (by decide)

/-- Claim C8 (confirmed): a Step element with numeric identifier 125 is
decompiled as an Else If calculation line exactly when its name attribute is
Else If, and with any other name it falls through to the generic fallback
text form naming its display name and identifier. -/
theorem C8_id125_dispatch (name : Str) (ch : List XmlElem) (ind : Nat) :
    (name = "Else If".data →
      decompStep (XmlElem.mk "Step".data
        [( "enable".data, "True".data), ( "id".data, "125".data),
         ( "name".data, name)] [] ch) ind =
        ([List.replicate (4 * (ind - 1)) ' ' ++ "Else If [ ".data ++
          orD (_get_calc_direct (XmlElem.mk "Step".data
            [( "enable".data, "True".data), ( "id".data, "125".data),
             ( "name".data, name)] [] ch)) "?".data ++ " ]".data],
         (ind - 1) + 1)) ∧
    (name ≠ "Else If".data →
      decompStep (XmlElem.mk "Step".data
        [( "enable".data, "True".data), ( "id".data, "125".data),
         ( "name".data, name)] [] ch) ind =
        ([List.replicate (4 * (ind - 1)) ' ' ++ name ++ " [id=125]".data],
         ind - 1)) := by
  have e2 : decompStep (XmlElem.mk "Step".data
      [( "enable".data, "True".data), ( "id".data, "125".data),
       ( "name".data, name)] [] ch) ind =
      (if ( "125".data : Str) = "125".data && name = "Else If".data then
        ([(List.replicate (4 * (ind - 1)) ' ' ++ ([] : Str)) ++ "Else If [ ".data ++
          orD (_get_calc_direct (XmlElem.mk "Step".data
            [( "enable".data, "True".data), ( "id".data, "125".data),
             ( "name".data, name)] [] ch)) "?".data ++ " ]".data],
         (ind - 1) + 1)
      else
        ([((List.replicate (4 * (ind - 1)) ' ' ++ ([] : Str)) ++ name) ++
          " [id=".data ++ "125".data ++ "]".data], ind - 1)) := rfl
  refine ⟨fun h => ?_, fun h => ?_⟩
  · subst h
    rw [e2, if_pos (by decide)]
    simp
  · rw [e2, if_neg (by simp [h])]
    simp only [List.append_nil, List.append_assoc]
    rfl

theorem addCur_nil (l : List Str) : addCur [] l = l := by
  cases l with
  | nil => rfl
  | cons h t => simp [addCur]

theorem map_shift_cancel (pt : List Nat) (p : Nat) :
    (pt.map (· + 1)).map (· - (p + 1 + 1)) = pt.map (· - (p + 1)) := by
  rw [List.map_map]
  exact List.map_congr_left (fun x _ => Nat.succ_sub_succ x (p + 1))

theorem cutAt_cons_zero (c : Char) (rest : Str) (ps : List Nat) :
    cutAt (c :: rest) (0 :: ps.map (· + 1)) = [] :: cutAt rest ps := by
  simp only [cutAt, List.length_cons, List.length_map, cutAtF, List.take_zero,
    List.drop_succ_cons, List.drop_zero]
  congr 1
  rw [show (fun x => x - (0 + 1)) = (fun x => x - 1) by funext x; rfl]
  rw [List.map_map]
  rw [show ((fun x => x - 1) ∘ (· + 1)) = id by funext x; simp]
  rw [List.map_id]

theorem cutAt_cons_succ (c : Char) (rest : Str) (p : Nat) (pt : List Nat) :
    cutAt (c :: rest) ((p + 1) :: pt.map (· + 1)) =
      (c :: List.take p rest) ::
        (cutAt rest (p :: pt)).tail ∧
    cutAt rest (p :: pt) =
      List.take p rest :: cutAtF pt.length (List.drop (p + 1) rest)
        (pt.map (· - (p + 1))) := by
  constructor
  · simp only [cutAt, List.length_cons, List.length_map, cutAtF,
      List.take_succ_cons, List.drop_succ_cons, map_shift_cancel, List.tail_cons]
  · simp only [cutAt, List.length_cons, cutAtF]

theorem spGo_eq_cutAt (s : Str) : ∀ (st : SpState) (cur : Str),
    spGo st cur s = addCur cur (cutAt s (semisFrom st s)) := by
  induction s with
  | nil => intro st cur; rfl
  | cons c rest ih =>
    intro st cur
    by_cases hsp : spSplits st c = true
    · rw [show spGo st cur (c :: rest) = cur :: spGo (spStep st c) [] rest by
        simp [spGo, hsp]]
      rw [ih (spStep st c) [], addCur_nil]
      rw [show semisFrom st (c :: rest) =
        0 :: (semisFrom (spStep st c) rest).map (· + 1) by simp [semisFrom, hsp]]
      rw [cutAt_cons_zero]
      simp [addCur]
    · rw [show spGo st cur (c :: rest) = spGo (spStep st c) (cur ++ [c]) rest by
        simp [spGo, hsp]]
      rw [ih (spStep st c) (cur ++ [c])]
      rw [show semisFrom st (c :: rest) =
        (semisFrom (spStep st c) rest).map (· + 1) by simp [semisFrom, hsp]]
      rcases hps : semisFrom (spStep st c) rest with - | ⟨p, pt⟩
      · simp only [List.map_nil]
        rcases hrest : rest with - | ⟨r0, rs⟩
        · simp [cutAt, cutAtF, addCur]
        · simp only [cutAt, List.length_nil, cutAtF]
          rw [if_neg (by simp), if_neg (by simp)]
          simp [addCur, List.append_assoc]
      · simp only [List.map_cons]
        rw [(cutAt_cons_succ c rest p pt).1]
        rw [show (cutAt rest (p :: pt)).tail =
          cutAtF pt.length (List.drop (p + 1) rest) (pt.map (· - (p + 1))) by
          rw [(cutAt_cons_succ c rest p pt).2]; rfl]
        rw [(cutAt_cons_succ c rest p pt).2]
        simp [addCur, List.append_assoc]

theorem semisFrom_mem (s : Str) : ∀ (st : SpState) (i : Nat),
    i ∈ semisFrom st s ↔
      ∃ c, s.get? i = some c ∧
        spSplits (List.foldl spStep st (s.take i)) c = true := by
  induction s with
  | nil => intro st i; simp [semisFrom]
  | cons c rest ih =>
    intro st i
    cases i with
    | zero =>
      by_cases hsp : spSplits st c = true
      · simp [semisFrom, hsp]
      · simp only [semisFrom, if_neg hsp, List.mem_map, List.take_zero,
          List.foldl_nil, List.get?_cons_zero]
        constructor
        · rintro ⟨a, -, ha⟩
          exact absurd ha (by simp)
        · rintro ⟨c2, hc2, hs2⟩
          rw [Option.some.injEq] at hc2
          exact absurd (hc2 ▸ hs2) hsp
    | succ j =>
      have base : j + 1 ∈ (semisFrom (spStep st c) rest).map (· + 1) ↔
          j ∈ semisFrom (spStep st c) rest := by
        simp only [List.mem_map]
        constructor
        · rintro ⟨a, ha, heq⟩
          simpa [show a = j from by omega] using ha
        · intro hj
          exact ⟨j, hj, rfl⟩
      have tail_eq : ((c :: rest).take (j + 1)).foldl spStep st =
          (rest.take j).foldl spStep (spStep st c) := by
        simp [List.take_succ_cons]
      by_cases hsp : spSplits st c = true
      · simp only [semisFrom, if_pos hsp, List.mem_cons]
        rw [show ((j + 1 = 0) ↔ False) by simp]
        rw [false_or, base, ih (spStep st c) j]
        simp [List.take_succ_cons]
      · simp only [semisFrom, if_neg hsp]
        rw [base, ih (spStep st c) j]
        simp [List.take_succ_cons]

/-- Claim C4 (amended): the parameter splitter cuts its input exactly at the
semicolons its own scanner state machine deems top-level, and a position is
such a split point exactly when it holds a semicolon at which the splitter
scanner (whose quote flag, unlike the balancer one, only toggles at zero
parenthesis depth) is outside quotes, unescaped and at zero depths. -/
theorem C4_splitter_semantics (s : Str) :
    _split_params s = cutAt s (semisFrom spInit s) ∧
    ∀ i, i ∈ semisFrom spInit s ↔
      ∃ c, s.get? i = some c ∧ spSplits (spStateAt (s.take i)) c = true := by
  constructor
  · rw [show _split_params s = spGo spInit [] s from rfl]
    rw [spGo_eq_cutAt s spInit [], addCur_nil]
  · intro i
    exact semisFrom_mem s spInit i

theorem validateGo_decomp (steps : List ParsedStep) : ∀ (stack : List Frame)
    (errs : List Str),
    validateGo steps stack errs =
      errs ++ vErrsFrom steps stack ++
        ((vWalk steps stack).reverse).map vUnclosedMsg := by
  induction steps with
  | nil => intro stack errs; simp [validateGo, vErrsFrom, vWalk]
  | cons st rest ih =>
    intro stack errs
    simp only [validateGo, vErrsFrom, vWalk]
    rw [ih]
    simp [List.append_assoc]

/-- Claim C6 (confirmed): the validator error list is the in-walk errors
followed by exactly one unclosed-block report per frame left on the stack at
end of input, and each such report names the frame kind and its opening
line number. -/
theorem C6_unclosed_frames (steps : List ParsedStep) :
    (validate_structure steps).errors =
      vErrsFrom steps [] ++ ((vWalk steps []).reverse).map vUnclosedMsg ∧
    ∀ f : Frame, vUnclosedMsg f =
      "Line ".data ++ natStr f.2.1 ++ ": ERROR — Unclosed ".data ++ pyTitle f.1 ++
        " — missing End ".data ++ pyTitle f.1 := by
  constructor
  · rw [show (validate_structure steps).errors = validateGo steps [] [] from rfl]
    rw [validateGo_decomp steps [] []]
    rfl
  · intro f
    simp only [vUnclosedMsg, addErr, List.append_assoc]
    rfl

theorem word_not_ws {ch : Char} (h : (ch.isAlphanum || ch = '_') = true) :
    isWSc ch = false := by
  by_contra hw
  rw [Bool.not_eq_false] at hw
  simp only [isWSc, Bool.or_eq_true, decide_eq_true_eq] at hw
  rcases hw with ((((h1 | h1) | h1) | h1) | h1) | h1 <;>
    (subst h1; exact absurd h (by decide))

theorem trim_wfName {n : Str} (h : wfName n = true) : trim n = n := by
  obtain ⟨wc, w', rfl, hwc, hw'⟩ := wfName_parts h
  refine trim_eq_self _ (by simp) ((by decide : isWSc '$' = false)) ?_
  rcases List.eq_nil_or_concat w' with rfl | ⟨L, b, rfl⟩
  · show isWSc (List.headD (List.reverse ['$', wc]) ' ') = false
    simp only [List.reverse_cons, List.reverse_nil, List.nil_append,
      List.cons_append, List.headD_cons]
    exact word_not_ws hwc
  · have hb : (b.isAlphanum || b = '_') = true := hw' b (by simp)
    simp only [List.concat_eq_append]
    show isWSc (List.headD (List.reverse ('$' :: wc :: (L ++ [b]))) ' ') = false
    simp only [List.reverse_cons, List.reverse_append, List.reverse_nil,
      List.nil_append, List.cons_append, List.append_assoc, List.headD_cons]
    exact word_not_ws hb

theorem trimL_pad (k : Nat) (l : Str) :
    trimL (List.replicate k ' ' ++ l) = trimL l := by
  induction k with
  | zero => rfl
  | succ k2 ih =>
    rw [List.replicate_succ, List.cons_append]
    rw [show trimL (' ' :: (List.replicate k2 ' ' ++ l)) =
      trimL (List.replicate k2 ' ' ++ l) from trimL_cons_ws _ (by decide)]
    exact ih

theorem trim_pad (k : Nat) (l : Str) :
    trim (List.replicate k ' ' ++ l) = trim l := by
  unfold trim
  rw [trimL_pad]

theorem pad_no_nl {k : Nat} {l : Str} (h : '\n' ∉ l) :
    '\n' ∉ List.replicate k ' ' ++ l := by
  intro hmem
  rcases List.mem_append.mp hmem with hmem2 | hmem2
  · have := List.eq_of_mem_replicate hmem2
    simp at this
  · exact h hmem2

theorem decompStep_elem (i : SInstr) (hw : wfInstr i = true) (ln ind : Nat) :
    ∃ e k nxt, step_to_elem (toStep i ln) = some e ∧
      decompStep e ind = ([List.replicate k ' ' ++ render i], nxt) := by
  cases i with
  | sIf c =>
    have hc : wfCalc c = true := by simpa [wfInstr] using hw
    obtain ⟨hcne, h1, h2⟩ := wfCalc_parts hc
    have htc : trim c = c := trim_eq_self c hcne h1 h2
    refine ⟨elemStep "68".data "If".data [elemCalc c], 4 * ind, ind + 1, rfl, ?_⟩
    have e1 : decompStep (elemStep "68".data "If".data [elemCalc c]) ind =
        ([List.replicate (4 * ind) ' ' ++ ([] : Str) ++ "If [ ".data ++
          orD (_get_calc_direct (elemStep "68".data "If".data [elemCalc c]))
            "?".data ++ " ]".data], ind + 1) := rfl
    rw [e1]
    rw [show _get_calc_direct (elemStep "68".data "If".data [elemCalc c]) =
      some (trim c) from rfl]
    rw [htc]
    rw [show orD (some c) "?".data = c by simp [orD, hcne]]
    simp [render, List.append_assoc]
  | sElseIf c =>
    have hc : wfCalc c = true := by simpa [wfInstr] using hw
    obtain ⟨hcne, h1, h2⟩ := wfCalc_parts hc
    have htc : trim c = c := trim_eq_self c hcne h1 h2
    refine ⟨elemStep "125".data "Else If".data [elemCalc c], 4 * (ind - 1),
      (ind - 1) + 1, rfl, ?_⟩
    have e1 : decompStep (elemStep "125".data "Else If".data [elemCalc c]) ind =
        ([List.replicate (4 * (ind - 1)) ' ' ++ ([] : Str) ++ "Else If [ ".data ++
          orD (_get_calc_direct (elemStep "125".data "Else If".data [elemCalc c]))
            "?".data ++ " ]".data], (ind - 1) + 1) := rfl
    rw [e1]
    rw [show _get_calc_direct (elemStep "125".data "Else If".data [elemCalc c]) =
      some (trim c) from rfl]
    rw [htc]
    rw [show orD (some c) "?".data = c by simp [orD, hcne]]
    simp [render, List.append_assoc]
  | sElse =>
    refine ⟨elemStep "69".data "Else".data [], 4 * (ind - 1), (ind - 1) + 1,
      rfl, ?_⟩
    have e1 : decompStep (elemStep "69".data "Else".data []) ind =
        ([List.replicate (4 * (ind - 1)) ' ' ++ ([] : Str) ++ "Else".data],
         (ind - 1) + 1) := rfl
    rw [e1]
    simp [render]
  | sEndIf =>
    refine ⟨elemStep "70".data "End If".data [], 4 * (ind - 1), ind - 1, rfl, ?_⟩
    have e1 : decompStep (elemStep "70".data "End If".data []) ind =
        ([List.replicate (4 * (ind - 1)) ' ' ++ ([] : Str) ++ "End If".data],
         ind - 1) := rfl
    rw [e1]
    simp [render]
  | sLoop =>
    refine ⟨elemStep "71".data "Loop".data
      [XmlElem.mk "FlushType".data [( "value".data, "Always".data)] [] []],
      4 * ind, ind + 1, rfl, ?_⟩
    have e1 : decompStep (elemStep "71".data "Loop".data
        [XmlElem.mk "FlushType".data [( "value".data, "Always".data)] [] []]) ind =
        ([List.replicate (4 * ind) ' ' ++ ([] : Str) ++ "Loop".data],
         ind + 1) := rfl
    rw [e1]
    simp [render]
  | sExitLoopIf c =>
    have hc : wfCalc c = true := by simpa [wfInstr] using hw
    obtain ⟨hcne, h1, h2⟩ := wfCalc_parts hc
    have htc : trim c = c := trim_eq_self c hcne h1 h2
    refine ⟨elemStep "72".data "Exit Loop If".data [elemCalc c], 4 * ind, ind,
      rfl, ?_⟩
    have e1 : decompStep (elemStep "72".data "Exit Loop If".data [elemCalc c]) ind =
        ([List.replicate (4 * ind) ' ' ++ ([] : Str) ++ "Exit Loop If [ ".data ++
          orD (_get_calc_direct (elemStep "72".data "Exit Loop If".data
            [elemCalc c])) "?".data ++ " ]".data], ind) := rfl
    rw [e1]
    rw [show _get_calc_direct (elemStep "72".data "Exit Loop If".data
      [elemCalc c]) = some (trim c) from rfl]
    rw [htc]
    rw [show orD (some c) "?".data = c by simp [orD, hcne]]
    simp [render, List.append_assoc]
  | sEndLoop =>
    refine ⟨elemStep "73".data "End Loop".data [], 4 * (ind - 1), ind - 1, rfl, ?_⟩
    have e1 : decompStep (elemStep "73".data "End Loop".data []) ind =
        ([List.replicate (4 * (ind - 1)) ' ' ++ ([] : Str) ++ "End Loop".data],
         ind - 1) := rfl
    rw [e1]
    simp [render]
  | sSetVar n v =>
    have hnv : wfName n = true ∧ wfCalc v = true := by simpa [wfInstr] using hw
    obtain ⟨hvne, hv1, hv2⟩ := wfCalc_parts hnv.2
    have htv : trim v = v := trim_eq_self v hvne hv1 hv2
    have htn : trim n = n := trim_wfName hnv.1
    have hnne : n ≠ [] := by
      obtain ⟨wc, w2, rfl, -, -⟩ := wfName_parts hnv.1
      simp
    refine ⟨elemStep "141".data "Set Variable".data
      [XmlElem.mk "Value".data [] [] [elemCalc v],
       XmlElem.mk "Repetition".data [] [] [elemCalc "1".data],
       XmlElem.mk "Name".data [] n []], 4 * ind, ind, rfl, ?_⟩
    have e1 : decompStep (elemStep "141".data "Set Variable".data
        [XmlElem.mk "Value".data [] [] [elemCalc v],
         XmlElem.mk "Repetition".data [] [] [elemCalc "1".data],
         XmlElem.mk "Name".data [] n []]) ind =
        ([List.replicate (4 * ind) ' ' ++ ([] : Str) ++ "Set Variable [ ".data ++
          orD (_get_text (elemStep "141".data "Set Variable".data
            [XmlElem.mk "Value".data [] [] [elemCalc v],
             XmlElem.mk "Repetition".data [] [] [elemCalc "1".data],
             XmlElem.mk "Name".data [] n []]) "Name".data) "$?".data ++
          " ; Value: ".data ++
          orD (_get_calc (elemStep "141".data "Set Variable".data
            [XmlElem.mk "Value".data [] [] [elemCalc v],
             XmlElem.mk "Repetition".data [] [] [elemCalc "1".data],
             XmlElem.mk "Name".data [] n []]) "Value".data) [] ++
          " ]".data], ind) := rfl
    rw [e1]
    rw [show _get_text (elemStep "141".data "Set Variable".data
        [XmlElem.mk "Value".data [] [] [elemCalc v],
         XmlElem.mk "Repetition".data [] [] [elemCalc "1".data],
         XmlElem.mk "Name".data [] n []]) "Name".data = some (trim n) from rfl]
    rw [show _get_calc (elemStep "141".data "Set Variable".data
        [XmlElem.mk "Value".data [] [] [elemCalc v],
         XmlElem.mk "Repetition".data [] [] [elemCalc "1".data],
         XmlElem.mk "Name".data [] n []]) "Value".data = some (trim v) from rfl]
    rw [htn, htv]
    rw [show orD (some n) "$?".data = n by simp [orD, hnne]]
    rw [show orD (some v) [] = v by simp [orD, hvne]]
    simp [render, List.append_assoc]

theorem stepsFrom_no_comment (instrs : List SInstr) : ∀ (ln : Nat),
    ∀ q ∈ stepsFrom instrs ln, q.step_type ≠ SType.comment := by
  induction instrs with
  | nil => intro ln q hq; simp [stepsFrom] at hq
  | cons i2 rest ih =>
    intro ln q hq
    rcases List.mem_cons.mp hq with rfl | hq2
    · cases i2 <;> simp [toStep]
    · exact ih (ln + 1) q hq2

theorem mergeGo_no_comments : ∀ (l : List ParsedStep) (p : ParsedStep),
    (∀ q ∈ l, q.step_type ≠ SType.comment) → mergeGo p l = p :: l := by
  intro l
  induction l with
  | nil => intro p h; rfl
  | cons st rest ih =>
    intro p h
    rw [show mergeGo p (st :: rest) = p :: mergeGo st rest by
      simp only [mergeGo, Bool.and_eq_true, decide_eq_true_eq]
      rw [if_neg (by rintro ⟨⟨hc, -⟩, -⟩; exact h st (by simp) hc)]]
    rw [ih st (fun q hq => h q (by simp [hq]))]

theorem ptGo_render (instrs : List SInstr) : ∀ (i startLn : Nat) (pd bd : Int)
    (out : PTAcc), (∀ i2 ∈ instrs, wfInstr i2 = true) →
    ptGo (instrs.map render) i [] startLn pd bd out =
      ⟨out.steps ++ stepsFrom instrs i, out.errs⟩ := by
  induction instrs with
  | nil =>
    intro i startLn pd bd out h
    obtain ⟨os, oe⟩ := out
    simp [ptGo, ptFlush, stepsFrom]
  | cons inst rest ih =>
    intro i startLn pd bd out h
    have hwi : wfInstr inst = true := h inst (by simp)
    have hr : trim (render inst) = render inst := trim_render hwi
    have hne : render inst ≠ [] := by cases inst <;> simp [render]
    have hcd : _count_delimiters (render inst) = (0, 0) := count_render hwi
    have estep : ptGo (render inst :: rest.map render) i [] startLn pd bd out =
        ptGo (rest.map render) (i + 1) [] i 0 0 (ptFlush [render inst] i out) := by
      simp only [ptGo, hr, hcd]
      rw [if_pos trivial, if_neg hne, if_pos (by decide)]
    have eflush : ptFlush [render inst] i out =
        { out with steps := out.steps ++ [toStep inst i] } := by
      simp only [ptFlush]
      rw [if_neg (by simp)]
      rw [show ([render inst].map trim).filter (fun x => decide (x ≠ [])) =
        [render inst] by simp [hr, hne]]
      rw [show joinWith ' ' [render inst] = render inst from rfl]
      rw [parse_line_render hwi i]
    rw [List.map_cons, estep, eflush, ih (i + 1) i 0 0 _ (fun j hj => h j (by simp [hj]))]
    simp [stepsFrom, List.append_assoc]

theorem parse_text_render (instrs : List SInstr) (hne : instrs ≠ [])
    (hw : ∀ i2 ∈ instrs, wfInstr i2 = true) :
    parse_text (renderText instrs) = (stepsFrom instrs 1, []) := by
  unfold parse_text renderText
  rw [split_join (by simpa using hne) (fun l hl => by
    obtain ⟨i2, hi2, rfl⟩ := List.mem_map.mp hl
    exact render_no_nl (hw i2 hi2))]
  rw [ptGo_render instrs 1 0 0 0 ⟨[], []⟩ hw]
  rcases hsf : stepsFrom instrs 1 with - | ⟨st0, srest⟩
  · simp [_merge_comments]
  · have hnc := stepsFrom_no_comment instrs 1
    rw [hsf] at hnc
    simp only [List.nil_append, _merge_comments]
    rw [mergeGo_no_comments srest st0 (fun q hq => hnc q (by simp [hq]))]

theorem decompGo_render (instrs : List SInstr) : ∀ (ln ind : Nat),
    (∀ i2 ∈ instrs, wfInstr i2 = true) →
    ∃ ls, decompGo (generate_elems (stepsFrom instrs ln)) ind = ls ∧
      ls.map trim = instrs.map render ∧ ∀ l ∈ ls, '\n' ∉ l := by
  induction instrs with
  | nil =>
    intro ln ind h
    exact ⟨[], rfl, rfl, by simp⟩
  | cons i2 rest ih =>
    intro ln ind h
    obtain ⟨e, k, nxt, hse, hds⟩ := decompStep_elem i2 (h i2 (by simp)) ln ind
    obtain ⟨ls, hls, hmap, hnl⟩ := ih (ln + 1) nxt (fun j hj => h j (by simp [hj]))
    have hgen : generate_elems (stepsFrom (i2 :: rest) ln) =
        e :: generate_elems (stepsFrom rest (ln + 1)) := by
      simp only [stepsFrom, generate_elems, List.filterMap_cons]
      rw [show step_to_elem (toStep i2 ln) = some e from hse]
      rw [show (toStep i2 ln).enabled = true by cases i2 <;> rfl]
      rfl
    have hgo : decompGo (e :: generate_elems (stepsFrom rest (ln + 1))) ind =
        (decompStep e ind).1 ++
          decompGo (generate_elems (stepsFrom rest (ln + 1)))
            (decompStep e ind).2 := rfl
    refine ⟨(List.replicate k ' ' ++ render i2) :: ls, ?_, ?_, ?_⟩
    · rw [hgen, hgo, hds]
      simp only [List.singleton_append]
      rw [hls]
    · simp only [List.map_cons, hmap, trim_pad, trim_render (h i2 (by simp))]
    · intro l hl
      rcases List.mem_cons.mp hl with rfl | hl2
      · exact pad_no_nl (render_no_nl (h i2 (by simp)))
      · exact hnl l hl2

/-- Claim C1 (amended): the round trip holds for the block-structured core of
the grammar: a program of If / Else If / Else / End If / Loop / Exit Loop If /
End Loop / Set Variable lines in canonical spelling with well-formed
calculations reparses, encodes and decompiles to the same text up to
whitespace and indentation canonicalization. -/
theorem C1_round_trip (instrs : List SInstr) (hne : instrs ≠ [])
    (hw : ∀ i2 ∈ instrs, wfInstr i2 = true) :
    canonLines (decompile_xml (generate_elems
      (parse_text (renderText instrs)).1)) =
      canonLines (renderText instrs) := by
  rw [parse_text_render instrs hne hw]
  obtain ⟨ls, hls, hmap, hnl⟩ := decompGo_render instrs 1 0 hw
  have hlsne : ls ≠ [] := by
    intro hnil
    rw [hnil] at hmap
    rcases instrs with - | ⟨j, js⟩
    · exact hne rfl
    · simp at hmap
  rw [show decompile_xml (generate_elems (stepsFrom instrs 1)) =
    joinWith '\n' (decompGo (generate_elems (stepsFrom instrs 1)) 0) from rfl]
  rw [hls]
  unfold canonLines renderText
  rw [split_join hlsne hnl]
  rw [split_join (by simpa using hne) (fun l hl => by
    obtain ⟨i2, hi2, rfl⟩ := List.mem_map.mp hl
    exact render_no_nl (hw i2 hi2))]
  rw [hmap, List.map_map]
  exact (List.map_congr_left (fun i2 hi2 =>
    trim_render (hw i2 hi2))).symm

/-- Witness for claim C1 at a concrete seven-line program. -/
theorem C1_round_trip_witness :
    canonLines (decompile_xml (generate_elems (parse_text (renderText
      [SInstr.sIf "x = 1".data,
       SInstr.sSetVar "$x".data "1".data,
       SInstr.sElse,
       SInstr.sEndIf,
       SInstr.sLoop,
       SInstr.sExitLoopIf "z".data,
       SInstr.sEndLoop])).1)) =
      canonLines (renderText
      [SInstr.sIf "x = 1".data,
       SInstr.sSetVar "$x".data "1".data,
       SInstr.sElse,
       SInstr.sEndIf,
       SInstr.sLoop,
       SInstr.sExitLoopIf "z".data,
       SInstr.sEndLoop]) :=
  C1_round_trip _ (by decide) (by decide)

/-- Counterexample to claim C1 as stated: the line New Record is a supported
instruction with valid nesting (no recognition or validation errors), yet the
round trip renders it as its canonical alias New Record/Request, which
whitespace canonicalization does not undo. -/
theorem C1_new_record_alias :
    (parse_text "New Record".data).2 = [] ∧
    (validate_structure (parse_text "New Record".data).1).errors = [] ∧
    canonLines (decompile_xml (generate_elems
      (parse_text "New Record".data).1)) ≠
      canonLines "New Record".data := by
  decide

end FmCp
